import Mathlib

/-!
Verification development for the RevivaTech NLU/recommendation pipeline.

Shallow embedding of the Python sources:
  * `backend/nlu/services/knowledge_base_service.py`  (retrieval, ranking, confidence)
  * `shared/backend/nlu/services/device_matcher.py`   (hybrid device identification)
  * `shared/backend/nlu/services/nlu_service_enhanced.py` (problem/intent classification)
  * `shared/backend/nlu/services/ml_recommendation_service.py` (personalised re-scoring)
  * `backend/nlu/services/nlu_service_phase3.py`      (pipeline entry, error handling)

Modelling conventions:
  * Python floats are modelled as exact rationals (`ℚ`); Python's
    `round(x, n)` (round-half-to-even) is modelled exactly by `pyRound`.
  * External collaborators (regular-expression engine, fuzzywuzzy string
    similarity, Matomo / ua-parser device fingerprint parsers, the
    PostgreSQL knowledge store) are out of scope for the core and appear
    as oracle parameters / as the result lists the store returns, exactly
    at the interface the code consumes.
  * Python dicts with fixed key sets become structures; iteration order of
    the literal tables in the source (Python preserves insertion order) is
    kept by using association lists in source order.
-/

namespace Reviva

/-! ### Python string primitives -/

/-- Model of `startsW pat l` : `pat` is a prefix of the character list `l`. -/
def startsW : List Char → List Char → Bool
  | [], _ => true
  | _ :: _, [] => false
  | p :: ps, c :: cs => p == c && startsW ps cs

/-- Model of `hasSub hay pat` models Python's substring test `pat in hay`
(contiguous substring; the empty pattern is contained in everything). -/
def hasSub (hay pat : String) : Bool :=
  go pat.data hay.data
where
  go (pat : List Char) : List Char → Bool
    | [] => pat.isEmpty
    | c :: cs => startsW pat (c :: cs) || go pat cs

/-- ASCII lower-casing of one character (all strings this code base
compares are ASCII). -/
def lowerChar (c : Char) : Char :=
  ((("ABCDEFGHIJKLMNOPQRSTUVWXYZ".data).zip "abcdefghijklmnopqrstuvwxyz".data).lookup c).getD c

/-- ASCII upper-casing of one character. -/
def upperChar (c : Char) : Char :=
  ((("abcdefghijklmnopqrstuvwxyz".data).zip "ABCDEFGHIJKLMNOPQRSTUVWXYZ".data).lookup c).getD c

/-- Python `str.lower()` (ASCII). -/
def pyLower (s : String) : String := ⟨s.data.map lowerChar⟩

/-- Python `str.title()` on a single lower-case word, and Lean's
`String.capitalize`, for the brand names in the tables: upper-case the
first character. -/
def pyCapitalize (s : String) : String :=
  match s.data with
  | [] => ⟨[]⟩
  | c :: rest => ⟨upperChar c :: rest⟩

/-- Model of `str.split(sep)` on a character list: fields between separators,
empties preserved (Python `split(" ")` semantics). -/
def wordsOn (sep : Char) : List Char → List (List Char)
  | [] => [[]]
  | c :: rest =>
    let r := wordsOn sep rest
    if c == sep then [] :: r
    else (c :: r.headD []) :: r.tail

/-- Python `str.split()` (whitespace split, empty fields dropped),
restricted to the space character as it occurs in this code base's data. -/
def pySplit (s : String) : List String :=
  ((wordsOn ' ' s.data).filter (· ≠ [])).map (fun l => ⟨l⟩)

/-- Python `.replace("_", " ").title()` as used for problem-category
names: capitalise each space-separated word (the inputs are lower-case
category keys, so only the first letter of each word changes). -/
def pyTitleWords (s : String) : String :=
  ⟨(List.intercalate [' ']
      ((wordsOn ' ' (s.data.map (fun c => if c == '_' then ' ' else c))).map
        (fun w => match w with | [] => [] | c :: rest => upperChar c :: rest)))⟩

/-- A `Decidable` instance for `<` on `ℚ` that the kernel can evaluate
(the one inherited from the `LinearOrder` structure does not reduce). -/
instance (priority := 2000) ratDecidableLt (a b : ℚ) : Decidable (a < b) :=
  decidable_of_iff (¬ b ≤ a) not_le

/-- Python `min(a, b)` (kernel-evaluable; equals `min` — see
`pyMin_eq`). -/
def pyMin (a b : ℚ) : ℚ := if a ≤ b then a else b

/-- Python `max(a, b)` (kernel-evaluable; equals `max` — see
`pyMax_eq`). -/
def pyMax (a b : ℚ) : ℚ := if b ≤ a then a else b

/-! ### Python `round` (banker's rounding) on rationals -/

/-- Round a rational to the nearest integer, ties to even
(CPython's rounding mode for `round`). -/
def rndHalfEven (q : ℚ) : ℤ :=
  let f := ⌊q⌋
  let r := q - (f : ℚ)
  if r < 1/2 then f
  else if 1/2 < r then f + 1
  else if f % 2 = 0 then f else f + 1

/-- Python `round(q, d)`. -/
def pyRound (q : ℚ) (d : ℕ) : ℚ :=
  (rndHalfEven (q * 10 ^ d) : ℚ) / 10 ^ d

/-- Model of `round(q, 3)` as used throughout the scoring code. -/
def round3 (q : ℚ) : ℚ := pyRound q 3

/-- Model of `round(q, 4)` as used for ML scores. -/
def round4 (q : ℚ) : ℚ := pyRound q 4

/-! ### Device matcher data model (`device_matcher.py`)

`DeviceMatch` is the dataclass of `device_matcher.py` (line 20).  The
`raw_data` diagnostic payload (free-form evidence dictionary, never read
by any scoring decision) is not modelled. -/

structure DeviceMatch where
  brand : String
  model : String
  dtype : String      -- the dataclass field `type` (a Lean keyword)
  confidence : ℚ
  source : String
deriving DecidableEq, Repr, Inhabited

/-- The sentinel produced by `match_device_from_text` before any hit. -/
def unknownText : DeviceMatch :=
  ⟨"Unknown", "Unknown Model", "Unknown Device", 1/10, "text"⟩

/-- The sentinel produced by `match_device_from_user_agent` fallback. -/
def unknownUA : DeviceMatch :=
  ⟨"Unknown", "Unknown Model", "Unknown Device", 1/10, "user_agent"⟩

/-- One entry of the `device_patterns` table: a regular-expression source
string (interpreted by the external `re` engine) together with the
`models` dictionary (model-key ↦ candidate model list, in source order). -/
structure PatternInfo where
  pattern : String
  models : List (String × List String)
deriving DecidableEq, Repr, Inhabited

/-- Model of `_load_device_patterns` (device_matcher.py lines 58-171), verbatim. -/
def devicePatterns : List (String × List PatternInfo) :=
  [ ("apple",
     [ ⟨"iphone\\s*(se|6|7|8|x|xs|xr|11|12|13|14|15|16)",
        [ ("se", ["iPhone SE", "iPhone SE 2nd Gen", "iPhone SE 3rd Gen"]),
          ("6", ["iPhone 6", "iPhone 6 Plus"]),
          ("7", ["iPhone 7", "iPhone 7 Plus"]),
          ("8", ["iPhone 8", "iPhone 8 Plus"]),
          ("x", ["iPhone X"]),
          ("xs", ["iPhone XS", "iPhone XS Max"]),
          ("xr", ["iPhone XR"]),
          ("11", ["iPhone 11", "iPhone 11 Pro", "iPhone 11 Pro Max"]),
          ("12", ["iPhone 12", "iPhone 12 mini", "iPhone 12 Pro", "iPhone 12 Pro Max"]),
          ("13", ["iPhone 13", "iPhone 13 mini", "iPhone 13 Pro", "iPhone 13 Pro Max"]),
          ("14", ["iPhone 14", "iPhone 14 Plus", "iPhone 14 Pro", "iPhone 14 Pro Max"]),
          ("15", ["iPhone 15", "iPhone 15 Plus", "iPhone 15 Pro", "iPhone 15 Pro Max"]),
          ("16", ["iPhone 16", "iPhone 16 Plus", "iPhone 16 Pro", "iPhone 16 Pro Max"]) ]⟩,
       ⟨"ipad\\s*(air|pro|mini|)",
        [ ("air", ["iPad Air", "iPad Air 2", "iPad Air 3", "iPad Air 4", "iPad Air 5"]),
          ("pro", ["iPad Pro 9.7", "iPad Pro 10.5", "iPad Pro 11", "iPad Pro 12.9"]),
          ("mini", ["iPad mini", "iPad mini 2", "iPad mini 3", "iPad mini 4", "iPad mini 5", "iPad mini 6"]),
          ("", ["iPad", "iPad 2", "iPad 3", "iPad 4", "iPad 5", "iPad 6", "iPad 7", "iPad 8", "iPad 9", "iPad 10"]) ]⟩,
       ⟨"macbook\\s*(air|pro|)",
        [ ("air", ["MacBook Air 13", "MacBook Air 15", "MacBook Air M1", "MacBook Air M2", "MacBook Air M3"]),
          ("pro", ["MacBook Pro 13", "MacBook Pro 14", "MacBook Pro 16", "MacBook Pro M1", "MacBook Pro M2", "MacBook Pro M3"]),
          ("", ["MacBook", "MacBook 12"]) ]⟩,
       ⟨"imac",
        [ ("", ["iMac 21.5", "iMac 24", "iMac 27", "iMac Pro", "iMac M1", "iMac M3"]) ]⟩ ]),
    ("samsung",
     [ ⟨"galaxy\\s*s\\s*(7|8|9|10|20|21|22|23|24|25)",
        [ ("7", ["Galaxy S7", "Galaxy S7 Edge"]),
          ("8", ["Galaxy S8", "Galaxy S8 Plus"]),
          ("9", ["Galaxy S9", "Galaxy S9 Plus"]),
          ("10", ["Galaxy S10", "Galaxy S10e", "Galaxy S10 Plus"]),
          ("20", ["Galaxy S20", "Galaxy S20 FE", "Galaxy S20 Plus", "Galaxy S20 Ultra"]),
          ("21", ["Galaxy S21", "Galaxy S21 FE", "Galaxy S21 Plus", "Galaxy S21 Ultra"]),
          ("22", ["Galaxy S22", "Galaxy S22 Plus", "Galaxy S22 Ultra"]),
          ("23", ["Galaxy S23", "Galaxy S23 FE", "Galaxy S23 Plus", "Galaxy S23 Ultra"]),
          ("24", ["Galaxy S24", "Galaxy S24 Plus", "Galaxy S24 Ultra"]),
          ("25", ["Galaxy S25", "Galaxy S25 Plus", "Galaxy S25 Ultra"]) ]⟩,
       ⟨"galaxy\\s*note\\s*(8|9|10|20)",
        [ ("8", ["Galaxy Note 8"]),
          ("9", ["Galaxy Note 9"]),
          ("10", ["Galaxy Note 10", "Galaxy Note 10 Plus"]),
          ("20", ["Galaxy Note 20", "Galaxy Note 20 Ultra"]) ]⟩,
       ⟨"galaxy\\s*a\\s*(10|20|30|40|50|70)",
        [ ("10", ["Galaxy A10", "Galaxy A12", "Galaxy A13", "Galaxy A14", "Galaxy A15"]),
          ("20", ["Galaxy A20", "Galaxy A21", "Galaxy A22", "Galaxy A23", "Galaxy A24", "Galaxy A25"]),
          ("30", ["Galaxy A30", "Galaxy A32", "Galaxy A33", "Galaxy A34", "Galaxy A35"]),
          ("40", ["Galaxy A40", "Galaxy A42", "Galaxy A43", "Galaxy A44", "Galaxy A45"]),
          ("50", ["Galaxy A50", "Galaxy A52", "Galaxy A53", "Galaxy A54", "Galaxy A55"]),
          ("70", ["Galaxy A70", "Galaxy A72", "Galaxy A73", "Galaxy A74", "Galaxy A75"]) ]⟩ ]),
    ("google",
     [ ⟨"pixel\\s*(2|3|4|5|6|7|8|9)",
        [ ("2", ["Pixel 2", "Pixel 2 XL"]),
          ("3", ["Pixel 3", "Pixel 3 XL", "Pixel 3a", "Pixel 3a XL"]),
          ("4", ["Pixel 4", "Pixel 4 XL", "Pixel 4a", "Pixel 4a 5G"]),
          ("5", ["Pixel 5", "Pixel 5a"]),
          ("6", ["Pixel 6", "Pixel 6 Pro", "Pixel 6a"]),
          ("7", ["Pixel 7", "Pixel 7 Pro", "Pixel 7a"]),
          ("8", ["Pixel 8", "Pixel 8 Pro", "Pixel 8a"]),
          ("9", ["Pixel 9", "Pixel 9 Pro", "Pixel 9 Pro XL"]) ]⟩ ]),
    ("huawei",
     [ ⟨"huawei\\s*p\\s*(20|30|40|50|60)",
        [ ("20", ["Huawei P20", "Huawei P20 Pro", "Huawei P20 Lite"]),
          ("30", ["Huawei P30", "Huawei P30 Pro", "Huawei P30 Lite"]),
          ("40", ["Huawei P40", "Huawei P40 Pro", "Huawei P40 Lite"]),
          ("50", ["Huawei P50", "Huawei P50 Pro"]),
          ("60", ["Huawei P60", "Huawei P60 Pro"]) ]⟩ ]),
    ("oneplus",
     [ ⟨"oneplus\\s*(6|7|8|9|10|11|12)",
        [ ("6", ["OnePlus 6", "OnePlus 6T"]),
          ("7", ["OnePlus 7", "OnePlus 7 Pro", "OnePlus 7T", "OnePlus 7T Pro"]),
          ("8", ["OnePlus 8", "OnePlus 8 Pro", "OnePlus 8T"]),
          ("9", ["OnePlus 9", "OnePlus 9 Pro", "OnePlus 9R"]),
          ("10", ["OnePlus 10 Pro", "OnePlus 10T"]),
          ("11", ["OnePlus 11", "OnePlus 11R"]),
          ("12", ["OnePlus 12", "OnePlus 12R"]) ]⟩ ]) ]

/-- Model of `_load_brand_aliases` (device_matcher.py lines 173-195), verbatim,
in source (= Python dict insertion) order. -/
def brandAliases : List (String × List String) :=
  [ ("apple", ["apple", "iphone", "ipad", "macbook", "imac", "mac"]),
    ("samsung", ["samsung", "galaxy", "note"]),
    ("google", ["google", "pixel", "nexus"]),
    ("huawei", ["huawei", "honor"]),
    ("oneplus", ["oneplus", "1+", "one plus"]),
    ("xiaomi", ["xiaomi", "mi", "redmi", "poco"]),
    ("oppo", ["oppo", "realme"]),
    ("vivo", ["vivo", "iqoo"]),
    ("sony", ["sony", "xperia"]),
    ("lg", ["lg"]),
    ("motorola", ["motorola", "moto"]),
    ("htc", ["htc"]),
    ("nokia", ["nokia"]),
    ("microsoft", ["microsoft", "surface"]),
    ("asus", ["asus", "rog"]),
    ("acer", ["acer"]),
    ("hp", ["hp", "hewlett packard"]),
    ("dell", ["dell"]),
    ("lenovo", ["lenovo", "thinkpad"]) ]

/-- Model of `_determine_device_type` (device_matcher.py lines 506-521). -/
def determineDeviceType (model : String) : String :=
  let ml := pyLower model
  if ["iphone", "galaxy", "pixel", "phone"].any (hasSub ml ·) then "Smartphone"
  else if ["ipad", "tablet", "tab"].any (hasSub ml ·) then "Tablet"
  else if ["macbook", "laptop", "notebook"].any (hasSub ml ·) then "Laptop"
  else if ["imac", "desktop", "pc"].any (hasSub ml ·) then "Desktop"
  else if ["watch"].any (hasSub ml ·) then "Smartwatch"
  else "Electronic Device"

/-- Model of `_detect_brand` (device_matcher.py lines 483-489): first brand (in
table order) one of whose aliases occurs in the lowered text. -/
def detectBrand (textLower : String) : Option String :=
  (brandAliases.find? (fun bp => bp.2.any (hasSub textLower ·))).map (·.1)

/-! ### External text-analysis oracles

The regular-expression engine (`re.search`) and fuzzywuzzy
(`process.extractOne` with `fuzz.partial_ratio`, and `fuzz.ratio`) are
external libraries; the matcher is parameterised over them.  They are
pure functions of their string arguments. -/

structure TextOracles where
  /-- Model of `re.search(pattern, text, re.IGNORECASE)`: `none` = no match,
  `some key` = a match whose first capture group is `key`
  (`""` when the pattern has no groups). -/
  reSearch : String → String → Option String
  /-- Model of `process.extractOne(text, choices, scorer=fuzz.partial_ratio)`:
  best choice together with its 0-100 similarity score. -/
  extractOne : String → List String → Option (String × ℚ)
  /-- Model of `fuzz.ratio`, a 0-100 similarity score. -/
  fuzzRatio : String → String → ℚ

/-- Scan one brand's pattern list (inner loop of
`match_device_from_text`, lines 253-276): the first pattern that fires
with a fuzzy model score above 60 yields a match and stops the scan. -/
def scanPatterns (O : TextOracles) (brand textLower : String) :
    List PatternInfo → Option DeviceMatch
  | [] => none
  | p :: rest =>
    match O.reSearch p.pattern textLower with
    | none => scanPatterns O brand textLower rest
    | some key =>
      -- `models.get(model_key, models.get("", []))`
      let possible :=
        match p.models.lookup key with
        | some ms => ms
        | none => (p.models.lookup "").getD []
      if possible ≠ [] then
        match O.extractOne textLower possible with
        | some (m, score) =>
          if score > 60 then
            some ⟨pyCapitalize brand, m, determineDeviceType (possible.headD ""),
                  pyMin (95/100) (score / 100), "text_pattern"⟩
          else scanPatterns O brand textLower rest
        | none => scanPatterns O brand textLower rest
      else scanPatterns O brand textLower rest

/-- Outer brand loop of `match_device_from_text` (lines 252-279): each
brand's hit (if any) overwrites `best_match`; the loop stops early once
`best_match.confidence > 0.8`. -/
def scanBrands (O : TextOracles) (textLower : String) :
    List (String × List PatternInfo) → DeviceMatch → DeviceMatch
  | [], best => best
  | (brand, ps) :: rest, best =>
    let best' :=
      match scanPatterns O brand textLower ps with
      | some m => m
      | none => best
    if best'.confidence > 8/10 then best'
    else scanBrands O textLower rest best'

/-- Model of `_extract_model_fuzzy` (lines 491-504). -/
def extractModelFuzzy (O : TextOracles) (textLower brand : String) : String :=
  match devicePatterns.lookup brand with
  | some patternInfos =>
    let allModels := patternInfos.flatMap (fun pi => pi.models.flatMap (·.2))
    if allModels ≠ [] then
      match O.extractOne textLower allModels with
      | some (m, score) => if score > 60 then m else "Unknown Model"
      | none => "Unknown Model"
    else "Unknown Model"
  | none => "Unknown Model"

/-- The pure computation of `match_device_from_text` (lines 240-301) on
the lowered text, without the cache layer. -/
def textCore (O : TextOracles) (textLower : String) : DeviceMatch :=
  let best := scanBrands O textLower devicePatterns unknownText
  if best.confidence < 8/10 then
    match detectBrand textLower with
    | some brand =>
      let model := extractModelFuzzy O textLower brand
      -- `if model:` is always true ("Unknown Model" is a non-empty string)
      let conf : ℚ := if model ≠ "Unknown Model" then 3/4 else 1/2
      ⟨pyCapitalize brand, model, determineDeviceType model, conf, "text_fuzzy"⟩
    | none => best
  else best

/-! ### The request-scoped TTL cache (`TTLCache(maxsize=1000, ttl=300)`) -/

/-- One cache entry: key, cached value, and insertion time (seconds). -/
structure CacheEntry where
  key : String
  val : DeviceMatch
  time : ℚ
deriving DecidableEq, Repr

/-- The matcher's shared cache, newest entries first. -/
abbrev Cache := List CacheEntry

/-- Cache lookup: a hit requires the entry to be younger than the
300-second TTL at the time of the lookup. -/
def cacheLookup (c : Cache) (k : String) (now : ℚ) : Option DeviceMatch :=
  match c.find? (fun e => e.key == k) with
  | some e => if now - e.time < 300 then some e.val else none
  | none => none

/-- Cache insertion: replaces any entry under the same key and evicts
beyond the 1000-entry capacity (oldest first, as in `TTLCache`). -/
def cacheInsert (c : Cache) (k : String) (v : DeviceMatch) (now : ℚ) : Cache :=
  (⟨k, v, now⟩ :: c.filter (fun e => e.key ≠ k)).take 1000

/-! ### External device-fingerprint parsers (`match_device_from_user_agent`) -/

/-- Facts the Matomo `DeviceDetector` reports for a user-agent string.
`brand`/`model` are `none` when the library returns a falsy value. -/
structure UAFacts where
  isMobile : Bool
  isTablet : Bool
  brand : Option String
  model : Option String
deriving DecidableEq, Repr

/-- Facts the secondary parser (`user_agents.parse`) reports. -/
structure AltUAFacts where
  brand : Option String
  model : Option String
  family : Option String
deriving DecidableEq, Repr

/-- The two external fingerprint parsers, as pure oracles; `none`
models a parser exception (swallowed at lines 361-363). -/
structure UAOracle where
  matomo : String → Option UAFacts
  alt : String → Option AltUAFacts

/-- The pure computation of `match_device_from_user_agent`
(device_matcher.py lines 303-368) for a non-empty user agent,
without the cache layer. -/
def uaCore (U : UAOracle) (ua : String) : DeviceMatch :=
  match U.matomo ua with
  | some f =>
    if f.isMobile || f.isTablet then
      let brand := f.brand.getD "Unknown"
      let model := f.model.getD "Unknown Model"
      let dtype := if f.isTablet then "Tablet" else "Smartphone"
      ⟨brand, if model ≠ "Unknown Model" then brand ++ " " ++ model else brand,
       dtype, 9/10, "user_agent_matomo"⟩
    else
      match U.alt ua with
      | some a =>
        match a.brand, a.model with
        | some b, some m =>
          ⟨b, b ++ " " ++ m, a.family.getD "Unknown Device", 8/10, "user_agent_alternative"⟩
        | _, _ => unknownUA
      | none => unknownUA
  | none => unknownUA

/-! ### Cached matchers and hybrid fusion -/

/-- Model of `match_device_from_text` (lines 240-301): cache keyed by
`"text_" ++ lowered text`; on a miss the pure result is cached. -/
def matchFromText (O : TextOracles) (c : Cache) (text : String) (now : ℚ) :
    DeviceMatch × Cache :=
  let key := "text_" ++ pyLower text
  match cacheLookup c key now with
  | some v => (v, c)
  | none =>
    let v := textCore O (pyLower text)
    (v, cacheInsert c key v now)

/-- Model of `match_device_from_user_agent` (lines 303-368): the empty user agent
short-circuits to the sentinel without touching the cache; otherwise the
cache is keyed by `"ua_" ++ user agent`. -/
def matchFromUA (U : UAOracle) (c : Cache) (ua : String) (now : ℚ) :
    DeviceMatch × Cache :=
  if ua = "" then (unknownUA, c)
  else
    let key := "ua_" ++ ua
    match cacheLookup c key now with
    | some v => (v, c)
    | none =>
      let v := uaCore U ua
      (v, cacheInsert c key v now)

/-- Model of `_devices_match` (lines 523-530): same brand case-insensitively and
`fuzz.ratio` model similarity above 70. -/
def devicesMatch (fuzzRatio : String → String → ℚ) (m1 m2 : DeviceMatch) : Bool :=
  pyLower m1.brand == pyLower m2.brand &&
    fuzzRatio (pyLower m1.model) (pyLower m2.model) > 70

/-- The fusion policy of `match_device_hybrid` (lines 382-447), as a
function of the two component matches (`none` = no user-agent match was
computed because `if user_agent:` was falsy). -/
def fuse (fuzzRatio : String → String → ℚ)
    (tm : DeviceMatch) (uam : Option DeviceMatch) : DeviceMatch :=
  match uam with
  | some um =>
    if um.confidence > 8/10 then
      if tm.confidence > 8/10 then
        if devicesMatch fuzzRatio tm um then
          ⟨um.brand, um.model, um.dtype,
           pyMin (98/100) ((tm.confidence + um.confidence) / 2 + 1/10),
           "hybrid_perfect"⟩
        else
          ⟨um.brand, um.model, um.dtype,
           pyMax tm.confidence um.confidence * (9/10),
           "hybrid_conflict"⟩
      else um
    else if tm.confidence > 7/10 then
      if um.confidence > 3/10 then
        ⟨tm.brand, tm.model, tm.dtype, tm.confidence + 5/100, "hybrid_text_enhanced"⟩
      else tm
    else if um.confidence > tm.confidence then um
    else tm
  | none =>
    if tm.confidence > 7/10 then tm
    else tm

/-- Model of `match_device_hybrid` (lines 370-447).  `userAgent = none` models a
missing argument; Python's `if user_agent:` also treats the empty string
as absent (no user-agent match is computed, though `match_device_from_text`
has already run and updated the cache). -/
def matchHybrid (O : TextOracles) (U : UAOracle) (c : Cache)
    (text : String) (userAgent : Option String) (now : ℚ) :
    DeviceMatch × Cache :=
  let (tm, c1) := matchFromText O c text now
  match userAgent with
  | some ua =>
    if ua ≠ "" then
      let (um, c2) := matchFromUA U c1 ua now
      (fuse O.fuzzRatio tm (some um), c2)
    else (fuse O.fuzzRatio tm none, c1)
  | none => (fuse O.fuzzRatio tm none, c1)

/-! ### Knowledge base service (`knowledge_base_service.py`)

The PostgreSQL knowledge store is an external collaborator: the three
retrieval strategies of `_search_procedures_database` are parameterised
queries whose result lists (`exact_results`, `fuzzy_results`,
`generic_results`) enter the model as inputs.  A row is modelled by
`ProcRecord` with its parsed `device_compatibility` (a compatibility
field that fails to parse as JSON degrades to empty sets in the code,
which is the same as a record with empty lists here). -/

structure ProcRecord where
  pid : ℕ
  brands : List String      -- device_compatibility['brands']
  models : List String      -- device_compatibility['models']
  types : List String       -- device_compatibility['types']
  problemCategories : List String
  diagnosticTags : List String
  aiKeywords : List String
  quality : Option ℚ        -- quality_score (nullable, 0-5)
  successRate : Option ℚ    -- success_rate (nullable, 0-100)
  viewCount : ℚ
  searchRank : ℚ            -- ts_rank from the store (0.5 fixed for generic)
  difficulty : ℚ            -- difficulty_level (1-5)
deriving DecidableEq, Repr, Inhabited

/-- Device description handed to the ranking code
(`device_info` dict: the `.get(key, '')` projections). -/
structure DeviceInfo where
  brand : String
  model : String
  dtype : String
deriving DecidableEq, Repr, Inhabited

/-- Problem description handed to the ranking code (`problem_info`). -/
structure ProblemQuery where
  category : String
  issue : String
  description : String
deriving DecidableEq, Repr, Inhabited

/-- The final deduplication loop of `_search_procedures_database`
(lines 186-196): keep the first occurrence of each id, in order. -/
def dedupById (seen : List ℕ) : List ProcRecord → List ProcRecord
  | [] => []
  | p :: rest =>
    if p.pid ∈ seen then dedupById seen rest
    else p :: dedupById (p.pid :: seen) rest

/-- Model of `_search_procedures_database` result merge (line 187): strategies are
concatenated exact, then fuzzy, then generic, and deduplicated by id. -/
def mergeStrategies (exact fuzzy generic : List ProcRecord) : List ProcRecord :=
  dedupById [] (exact ++ fuzzy ++ generic)

/-- Model of `_score_device_compatibility` (lines 236-264). -/
def scoreDeviceCompat (p : ProcRecord) (dev : DeviceInfo) : ℚ :=
  let s1 : ℚ := if dev.brand ∈ p.brands ∨ "*" ∈ p.brands then 5/10 else 0
  let s2 : ℚ :=
    if p.models.any (fun m => hasSub dev.model m || hasSub m dev.model) ∨ "*" ∈ p.models
    then 3/10 else 0
  let s3 : ℚ := if dev.dtype ∈ p.types ∨ "*" ∈ p.types then 2/10 else 0
  pyMin (s1 + s2 + s3) 1

/-- Model of `_score_problem_relevance` (lines 266-291). -/
def scoreProblemRelevance (p : ProcRecord) (prob : ProblemQuery) : ℚ :=
  let s1 : ℚ := if prob.category ∈ p.problemCategories then 6/10 else 0
  let s2 : ℚ := if prob.issue ∈ p.diagnosticTags then 4/10 else 0
  let problemText := pyLower (prob.description ++ " " ++ prob.category ++ " " ++ prob.issue)
  let kwMatches := (p.aiKeywords.filter (fun kw => hasSub problemText (pyLower kw))).length
  let bonus : ℚ :=
    if p.aiKeywords ≠ [] then pyMin ((kwMatches : ℚ) / (p.aiKeywords.length : ℚ)) (2/10) else 0
  pyMin (s1 + s2 + bonus) 1

/-- Model of `_score_quality_metrics` (lines 293-312). -/
def scoreQualityMetrics (p : ProcRecord) : ℚ :=
  let s1 : ℚ := match p.quality with | some q => q / 5 * (5/10) | none => 0
  let s2 : ℚ := match p.successRate with | some s => s / 100 * (3/10) | none => 0
  let s3 : ℚ := pyMin (p.viewCount / 100) 1 * (2/10)
  min (s1 + s2 + s3) 1

/-- Per-candidate scoring breakdown stored by `_rank_procedures`. -/
structure Breakdown where
  deviceCompatibility : ℚ
  problemRelevance : ℚ
  qualityMetrics : ℚ
  searchRelevance : ℚ
deriving DecidableEq, Repr, Inhabited

/-- A procedure record annotated with its relevance score
(`relevance_score`, `scoring_breakdown`). -/
structure Scored where
  proc : ProcRecord
  relevance : ℚ
  breakdown : Breakdown
deriving DecidableEq, Repr, Inhabited

/-- The scoring half of `_rank_procedures` (lines 206-231) for one
candidate: fixed 0.4/0.3/0.2/0.1 weights, rounded to 3 decimals. -/
def scoreProcedure (dev : DeviceInfo) (prob : ProblemQuery) (p : ProcRecord) : Scored :=
  let deviceScore := scoreDeviceCompat p dev
  let problemScore := scoreProblemRelevance p prob
  let qualityScore := scoreQualityMetrics p
  let searchScore := p.searchRank
  let score := deviceScore * (4/10) + problemScore * (3/10) + qualityScore * (2/10)
               + pyMin searchScore 1 * (1/10)
  ⟨p, round3 score,
   ⟨round3 deviceScore, round3 problemScore, round3 qualityScore, round3 searchScore⟩⟩

/-- Stable descending insertion by `relevance_score`: the new element is
placed after every already-placed element of greater-or-equal score. -/
def insDesc (x : Scored) : List Scored → List Scored
  | [] => [x]
  | y :: ys => if x.relevance ≤ y.relevance then y :: insDesc x ys else x :: y :: ys

/-- Stable sort, descending by `relevance_score`, processing candidates
in arrival order.  Python's `sorted(key=..., reverse=True)` is a stable
descending sort; any two stable descending sorts agree, so this
insertion sort computes the same list. -/
def sortDesc (l : List Scored) : List Scored :=
  l.foldl (fun acc x => insDesc x acc) []

/-- Model of `_rank_procedures` (lines 198-234): score every candidate, then sort
descending by `relevance_score` (a stable sort — the only key). -/
def rankProcedures (procs : List ProcRecord) (dev : DeviceInfo) (prob : ProblemQuery) :
    List Scored :=
  sortDesc (procs.map (scoreProcedure dev prob))

/-- The projection of an `_enhance_procedure_results` entry that the
confidence aggregation reads (`relevance_score`; the remaining fields —
steps preview, feedback statistics, cost estimate, recommendation
reason — are built from further store queries and never feed back into
any score). -/
structure Enhanced where
  pid : ℕ
  relevance : ℚ
deriving DecidableEq, Repr, Inhabited

/-- Model of `_enhance_procedure_results` (lines 314-369): top 5 results only. -/
def enhanceResults (ranked : List Scored) : List Enhanced :=
  (ranked.take 5).map (fun s => ⟨s.proc.pid, s.relevance⟩)

/-- Model of `_calculate_knowledge_confidence` (lines 437-456).  Note the final
value is `min(top + boost - penalty, 1.0)`: clamped from above only. -/
def kbConfidence (results : List Enhanced) : ℚ :=
  if results = [] then 0
  else
    let topScore := (results.headD default).relevance
    let goodMatches := (results.filter (fun r => r.relevance > 7/10)).length
    let confidenceBoost := pyMin ((goodMatches : ℚ) * (5/100)) (15/100)
    let confidencePenalty : ℚ := if results.all (fun r => r.relevance < 8/10) then 1/10 else 0
    round3 (pyMin (topScore + confidenceBoost - confidencePenalty) 1)

/-- The output of `search_procedures` that downstream stages consume. -/
structure SearchOutput where
  totalFound : ℕ
  rankedResults : List Enhanced
  knowledgeBaseConfidence : ℚ
deriving DecidableEq, Repr, Inhabited

/-- Model of `search_procedures` (lines 66-103), with the three store result
lists as inputs (the store is external; a store failure degrades each
list to `[]` inside `_execute_query`). -/
def searchProcedures (exact fuzzy generic : List ProcRecord)
    (dev : DeviceInfo) (prob : ProblemQuery) : SearchOutput :=
  let procedures := mergeStrategies exact fuzzy generic
  let ranked := rankProcedures procedures dev prob
  let enhanced := enhanceResults ranked
  ⟨procedures.length, enhanced, kbConfidence enhanced⟩

/-! ### Enhanced problem / intent classification (`nlu_service_enhanced.py`) -/

/-- Model of `enhanced_problem_patterns` (lines 80-105), verbatim, in source order. -/
def enhancedProblemPatterns : List (String × List String) :=
  [ ("screen_damage",
     ["cracked", "broken", "shattered", "damaged", "black screen", "white screen",
      "no display", "flickering", "lines", "spots", "dead pixels", "touch not working"]),
    ("battery_issues",
     ["battery drain", "won't charge", "charging issues", "dead battery", "battery life",
      "power issues", "won't turn on", "shuts down", "overheating while charging"]),
    ("water_damage",
     ["water damage", "wet", "dropped in water", "liquid spill", "humidity",
      "moisture", "won't turn on after water", "corrosion"]),
    ("audio_problems",
     ["no sound", "speaker issues", "microphone", "can't hear", "audio cutting out",
      "distorted sound", "echo", "volume problems"]),
    ("performance_issues",
     ["slow", "freezing", "crashing", "hanging", "laggy", "unresponsive",
      "apps closing", "memory issues", "storage full"]),
    ("connectivity_issues",
     ["wifi problems", "no signal", "bluetooth issues", "cellular problems",
      "can't connect", "network issues", "internet problems"]) ]

/-- Model of `_assess_severity` (lines 278-290). -/
def assessSeverity (messageLower category : String) : String :=
  let hi := ["urgent", "emergency", "critical", "completely broken", "won't turn on", "dead"]
  let med := ["sometimes", "intermittent", "occasionally", "slow"]
  if hi.any (hasSub messageLower ·) then "high"
  else if med.any (hasSub messageLower ·) then "medium"
  else if category = "water_damage" ∨ category = "screen_damage" then "high"
  else "medium"

/-- Model of `_estimate_repair_time` (lines 292-310). -/
def estimateRepairTime (category : String) (dm : DeviceMatch) : String :=
  let table : List (String × String) :=
    [ ("screen_damage", "2-4 hours"), ("battery_issues", "1-2 hours"),
      ("water_damage", "24-48 hours"), ("audio_problems", "1-3 hours"),
      ("performance_issues", "1-2 hours"), ("connectivity_issues", "30min-2 hours") ]
  let base := (table.lookup category).getD "Assessment needed"
  if (hasSub (pyLower dm.model) "macbook" || hasSub (pyLower dm.model) "imac")
      ∧ (category = "screen_damage" ∨ category = "battery_issues")
  then "4-8 hours" else base

/-- The confidence assigned to one keyword hit in
`extract_problem_info_enhanced` (lines 199-206): `0.8`, plus `0.1` when
the device-match confidence exceeds `0.8`, plus a `0.05` Apple-specific
nudge (screen issues on an iPhone model / battery issues on a MacBook). -/
def problemHitConfidence (category : String) (dm : DeviceMatch) : ℚ :=
  let c : ℚ := 8/10 + (if dm.confidence > 8/10 then 1/10 else 0)
  if pyLower dm.brand = "apple" then
    if category = "screen_damage" ∧ hasSub (pyLower dm.model) "iphone" then c + 5/100
    else if category = "battery_issues" ∧ hasSub (pyLower dm.model) "macbook" then c + 5/100
    else c
  else c

/-- The `ProblemMatch` record built by the classifier. -/
structure ProblemInfo where
  category : String
  issue : String
  severity : String
  repairTime : String
  confidence : ℚ
deriving DecidableEq, Repr, Inhabited

/-- Model of `_extract_problem_fallback` (lines 326-336). -/
def extractProblemFallback (message : String) : ProblemInfo :=
  let ml := pyLower message
  if ["screen", "display", "crack"].any (hasSub ml ·) then
    ⟨"Screen", "screen_damage", "medium", "2-4 hours", 6/10⟩
  else if ["battery", "charge", "power"].any (hasSub ml ·) then
    ⟨"Battery", "battery_issues", "medium", "1-2 hours", 6/10⟩
  else
    ⟨"General", "unknown_issue", "unknown", "Assessment needed", 2/10⟩

/-- The starting `best_problem` value (lines 187-193). -/
def problemStart : ProblemInfo :=
  ⟨"General", "unknown_issue", "unknown", "Assessment needed", 1/10⟩

/-- The loop body of `extract_problem_info_enhanced` (lines 197-215)
for one keyword pattern: a keyword contained in the lowered message
updates `best_problem` when the hit's confidence beats the current
best; the stored confidence is capped at `0.95`. -/
def problemPatternStep (messageLower : String) (dm : DeviceMatch)
    (cat : String × List String) (b : ProblemInfo) (pat : String) : ProblemInfo :=
  if hasSub messageLower pat then
    let conf := problemHitConfidence cat.1 dm
    if conf > b.confidence then
      ⟨pyTitleWords cat.1, cat.1, assessSeverity messageLower cat.1,
       estimateRepairTime cat.1 dm, pyMin conf (19/20)⟩
    else b
  else b

/-- One category's pattern scan in `extract_problem_info_enhanced`
(lines 196-215). -/
def problemScanCategory (messageLower : String) (dm : DeviceMatch)
    (best : ProblemInfo) (cat : String × List String) : ProblemInfo :=
  cat.2.foldl (problemPatternStep messageLower dm cat) best

/-- Model of `extract_problem_info_enhanced` (lines 183-223). -/
def extractProblemInfoEnhanced (message : String) (dm : DeviceMatch) : ProblemInfo :=
  let ml := pyLower message
  let best := enhancedProblemPatterns.foldl (problemScanCategory ml dm) problemStart
  if best.confidence < 1/2 then
    let fb := extractProblemFallback message
    if fb.confidence > best.confidence then fb else best
  else best

/-- Model of `enhanced_intents` (lines 230-250), verbatim. -/
def enhancedIntents : List (String × List String) :=
  [ ("booking_request",
     ["book", "schedule", "appointment", "repair", "fix", "when can", "available",
      "make appointment", "need repair", "want to repair"]),
    ("price_inquiry",
     ["cost", "price", "how much", "expensive", "charge", "fee", "estimate",
      "quote", "pricing", "affordable"]),
    ("problem_diagnosis",
     ["what's wrong", "diagnose", "issue", "problem", "broken", "not working",
      "troubleshoot", "help", "wrong with"]),
    ("service_inquiry",
     ["services", "what do you", "can you", "do you repair", "types of repair",
      "specialise", "expertise"]),
    ("general_inquiry",
     ["hello", "hi", "information", "about", "contact", "location", "hours"]) ]

structure IntentInfo where
  intent : String
  confidence : ℚ
deriving DecidableEq, Repr, Inhabited

/-- The confidence of one intent pattern hit (lines 257-269): base
`0.7`, `+0.1` for a strong device match, `+0.05` for intent-specific
context (urgency words for bookings, a known brand for price queries). -/
def intentHitConfidence (intent messageLower : String) (dm : DeviceMatch) : ℚ :=
  let c : ℚ := 7/10 + (if dm.confidence > 8/10 then 1/10 else 0)
  if intent = "booking_request" ∧ ["urgent", "asap", "soon"].any (hasSub messageLower ·) then
    c + 5/100
  else if intent = "price_inquiry" ∧ dm.brand ≠ "Unknown" then c + 5/100
  else c

/-- The inner pattern loop of `classify_intent_enhanced`
(lines 255-271): running maximum of the hit confidences. -/
def intentPatternStep (ml : String) (dm : DeviceMatch) (intent : String)
    (acc : ℚ) (pat : String) : ℚ :=
  if hasSub ml pat then pyMax acc (intentHitConfidence intent ml dm) else acc

/-- The per-intent step of `classify_intent_enhanced` (lines 254-274). -/
def intentStep (ml : String) (dm : DeviceMatch) (best : IntentInfo)
    (ip : String × List String) : IntentInfo :=
  let maxConf := ip.2.foldl (intentPatternStep ml dm ip.1) 0
  if maxConf > best.confidence then ⟨ip.1, pyMin maxConf (19/20)⟩ else best

/-- Model of `classify_intent_enhanced` (lines 225-276): per intent, the maximum
hit confidence over its patterns; the best intent wins, capped at
`0.95`, with `general_inquiry` at `0.3` as the floor. -/
def classifyIntentEnhanced (message : String) (dm : DeviceMatch) : IntentInfo :=
  let ml := pyLower message
  enhancedIntents.foldl (intentStep ml dm) ⟨"general_inquiry", 3/10⟩

/-- The Phase-2 result bundle that Phase 3 consumes. -/
structure Phase2Result where
  device : DeviceMatch
  problem : ProblemInfo
  intent : IntentInfo
  overallConfidence : ℚ
deriving DecidableEq, Repr, Inhabited

/-- Model of `process_message_enhanced` (lines 107-172): hybrid device match,
problem and intent extraction, and the 0.4/0.35/0.25 weighted overall
confidence (repair insights and performance bookkeeping have no effect
on any returned score and are not modelled). -/
def processMessageEnhanced (O : TextOracles) (U : UAOracle) (c : Cache)
    (message : String) (userAgent : Option String) (now : ℚ) : Phase2Result × Cache :=
  let (dm, c1) := matchHybrid O U c message userAgent now
  let prob := extractProblemInfoEnhanced message dm
  let intent := classifyIntentEnhanced message dm
  (⟨dm, prob, intent,
    dm.confidence * (4/10) + prob.confidence * (35/100) + intent.confidence * (25/100)⟩,
   c1)

/-! ### ML recommendation service (`ml_recommendation_service.py`) -/

/-- The procedure field projections the ML scorer reads.  In this
service `device_compatibility` carries *string-valued* `brands`,
`device_types` and `models` fields (`.get(..., '')`). -/
structure MLProcedure where
  pid : ℕ
  brandsStr : String
  deviceTypesStr : String
  modelsStr : String
  problemCategory : String
  difficulty : ℚ            -- difficulty_level, default 3
  estimatedTimeHours : ℚ    -- estimated_time_hours, default 4
  stepsCount : ℕ            -- len(procedure.get('steps', []))
deriving DecidableEq, Repr, Inhabited

/-- The optional user-context profile. -/
structure UserContext where
  skillLevel : String
  quickRepairs : Bool       -- preferences.get('quick_repairs')
  detailedGuides : Bool     -- preferences.get('detailed_guides')
deriving DecidableEq, Repr, Inhabited

/-- Model of `user_skill_levels` max-difficulty ceilings (lines 55-60). -/
def skillMaxDifficulty : List (String × ℚ) :=
  [("beginner", 2), ("intermediate", 4), ("expert", 5), ("professional", 5)]

/-- Model of `_calculate_model_similarity` (lines 339-363). -/
def calcModelSimilarity (userModel procModels : String) : ℚ :=
  if userModel = "" ∨ procModels = "" then 0
  else
    let um := pyLower userModel
    let pm := pyLower procModels
    if hasSub pm um then 1
    else
      let userWords := (pySplit um).dedup
      let procWords := (pySplit pm).dedup
      if userWords ≠ [] ∧ procWords ≠ [] then
        ((userWords.filter (· ∈ procWords)).length : ℚ) / (userWords.length : ℚ)
      else 0

/-- Model of `_calculate_device_similarity` (lines 222-245). -/
def calcDeviceSimilarity (p : MLProcedure) (dev : DeviceInfo) : ℚ :=
  let brandMatch : ℚ := if hasSub (pyLower p.brandsStr) (pyLower dev.brand) then 1 else 0
  let typeMatch : ℚ := if hasSub (pyLower p.deviceTypesStr) (pyLower dev.dtype) then 1 else 0
  let modelSim := calcModelSimilarity dev.model p.modelsStr
  brandMatch * (5/10) + typeMatch * (3/10) + modelSim * (2/10)

/-- Model of `_calculate_problem_similarity` (lines 247-269): exact category
match, else Jaccard overlap of the word sets. -/
def calcProblemSimilarity (p : MLProcedure) (prob : ProblemQuery) : ℚ :=
  let pc := pyLower p.problemCategory
  let uc := pyLower prob.category
  if pc = uc then 1
  else
    let procWords := (pySplit pc).dedup
    let userWords := (pySplit uc).dedup
    if procWords ≠ [] ∧ userWords ≠ [] then
      let overlap := (procWords.filter (· ∈ userWords)).length
      let unionCard := (procWords ++ userWords.filter (· ∉ procWords)).length
      if unionCard > 0 then (overlap : ℚ) / (unionCard : ℚ) else 0
    else 0

/-- Model of `_calculate_difficulty_appropriateness` (lines 271-295). -/
def calcDifficultyAppropriateness (p : MLProcedure) (uc : Option UserContext) : ℚ :=
  match uc with
  | none => 7/10
  | some u =>
    let maxDifficulty := ((skillMaxDifficulty.lookup u.skillLevel).getD 4)
    if p.difficulty ≤ maxDifficulty then
      pyMax (1 - (p.difficulty - 1) / maxDifficulty * (3/10)) (6/10)
    else
      pyMax (3/10 - (p.difficulty - maxDifficulty) * (1/10)) 0

/-- Model of `_calculate_user_context_score` (lines 297-321). -/
def calcUserContextScore (p : MLProcedure) (uc : Option UserContext) : ℚ :=
  match uc with
  | none => 1/2
  | some u =>
    let s : ℚ := 1/2
    let s := if u.skillLevel = "expert" ∨ u.skillLevel = "professional" then s + 2/10 else s
    let s := if u.quickRepairs ∧ p.estimatedTimeHours ≤ 2 then s + 2/10 else s
    let s := if u.detailedGuides ∧ p.stepsCount ≥ 8 then s + 1/10 else s
    pyMin s 1

/-- Model of `_calculate_success_rate_score` (lines 323-337).  The
`random.uniform(-0.05, 0.05)` jitter (a documented stand-in for missing
feedback data) enters as the parameter `jitter`. -/
def calcSuccessRateScore (p : MLProcedure) (jitter : ℚ) : ℚ :=
  let base := pyMax (95/100 - (p.difficulty - 1) * (1/10)) (7/10)
  pyMax (pyMin (base + jitter) 1) 0

/-- The weighted ML score of `_apply_ml_scoring` (lines 189-195):
weights 0.35 / 0.25 / 0.15 / 0.15 / 0.10. -/
def mlScore (p : MLProcedure) (dev : DeviceInfo) (prob : ProblemQuery)
    (uc : Option UserContext) (jitter : ℚ) : ℚ :=
  calcDeviceSimilarity p dev * (35/100) +
  calcProblemSimilarity p prob * (25/100) +
  calcDifficultyAppropriateness p uc * (15/100) +
  calcUserContextScore p uc * (15/100) +
  calcSuccessRateScore p jitter * (10/100)

/-- The `overall_confidence` of `_calculate_ml_confidence`
(lines 448-498): average recommendation score, `+0.1` personalisation
boost, clamped above at 1 and rounded to 4 decimals. -/
def mlOverallConfidence (recScores : List ℚ) (hasContext : Bool) : ℚ :=
  if recScores = [] then 0
  else
    let avg := recScores.sum / (recScores.length : ℚ)
    let boost : ℚ := if hasContext then 1/10 else 0
    round4 (pyMin (avg + boost) 1)

/-! ### Phase-3 pipeline entry (`nlu_service_phase3.py`) -/

/-- Model of `_calculate_enhanced_confidence` (lines 314-348): overall pipeline
confidence as the fixed 40/40/20 weighted sum. -/
def enhancedOverallConfidence (phase2Conf kbConf : ℚ) (diagConfs : List ℚ) : ℚ :=
  let diagConf := if diagConfs = [] then 0 else diagConfs.sum / (diagConfs.length : ℚ)
  round3 (phase2Conf * (4/10) + kbConf * (4/10) + diagConf * (2/10))

/-- The categorical confidence level of `_calculate_enhanced_confidence`. -/
def confidenceLevel (overall : ℚ) : String :=
  if overall > 8/10 then "high" else if overall > 6/10 then "medium" else "low"

/-- Model of `_calculate_response_confidence` (lines 350-379): average of device
confidence, problem confidence and (when present) the top relevance
score, floored at `0.3`. -/
def responseConfidence (deviceConf problemConf : ℚ) (topRelevance : Option ℚ) : ℚ :=
  let factors := [deviceConf, problemConf] ++ (match topRelevance with
    | some r => [r] | none => [])
  pyMax (factors.sum / (factors.length : ℚ)) (3/10)

/-- The fallback payload shape of `_handle_error`. -/
structure FallbackResponse where
  message : String
  recommendedActions : List String
  confidence : ℚ
  responseType : String
deriving DecidableEq, Repr, Inhabited

/-- The successful Phase-3 payload fields downstream consumers read. -/
structure Phase3Success where
  phase2 : Phase2Result
  search : SearchOutput
  overallConfidence : ℚ
  responseConf : ℚ
deriving DecidableEq, Repr, Inhabited

/-- A Phase-3 invocation returns either the integrated result or the
error-fallback payload — always a structured value. -/
inductive Phase3Result where
  | ok (r : Phase3Success)
  | fallback (errorMessage : String) (response : FallbackResponse)
deriving DecidableEq, Repr

/-- Model of `_handle_error` (lines 417-441): the fixed fallback payload. -/
def handleError (error : String) : Phase3Result :=
  .fallback ("Phase 3 processing error: " ++ error)
    ⟨"I encountered an issue processing your request. Please try rephrasing your question or contact our support team.",
     ["Contact customer support", "Try a different description", "Visit our service center"],
     1/10, "error_fallback"⟩

/-- The body of `process_message_with_knowledge` (lines 61-142) when no
stage raises: Phase-2 analysis, knowledge-base search over the store's
three result lists, and the confidence aggregation. -/
def phase3Compose (O : TextOracles) (U : UAOracle) (c : Cache)
    (message : String) (userAgent : Option String) (now : ℚ)
    (exact fuzzy generic : List ProcRecord) (diagConfs : List ℚ) :
    Phase3Success × Cache :=
  let (p2, c1) := processMessageEnhanced O U c message userAgent now
  let dev : DeviceInfo := ⟨p2.device.brand, p2.device.model, p2.device.dtype⟩
  let prob : ProblemQuery := ⟨p2.problem.category, p2.problem.issue, ""⟩
  let kb := searchProcedures exact fuzzy generic dev prob
  let overall := enhancedOverallConfidence p2.overallConfidence kb.knowledgeBaseConfidence diagConfs
  let respConf := responseConfidence p2.device.confidence p2.problem.confidence
    (kb.rankedResults.head?.map (·.relevance))
  (⟨p2, kb, overall, respConf⟩, c1)

/-- Model of `process_message_with_knowledge` (lines 50-145) at its boundary: the
entire body runs inside one `try`; `attempt` is its outcome (`.error`
models any internal exception, whose message reaches `_handle_error`). -/
def processMessageWithKnowledge (attempt : Except String Phase3Success) : Phase3Result :=
  match attempt with
  | .ok r => .ok r
  | .error e => handleError e

/-- The cache-independent value of `match_device_hybrid`: what the
fusion returns once both component matchers are seen to compute pure
functions of their string inputs. -/
def hybridPure (O : TextOracles) (U : UAOracle) (text : String)
    (userAgent : Option String) : DeviceMatch :=
  let tm := textCore O (pyLower text)
  match userAgent with
  | some ua =>
    if ua ≠ "" then fuse O.fuzzRatio tm (some (uaCore U ua))
    else fuse O.fuzzRatio tm none
  | none => fuse O.fuzzRatio tm none

/-! ### Well-formedness predicates used as hypotheses -/

/-- fuzzywuzzy similarity scores are percentages in `[0, 100]`. -/
def OracleBounds (O : TextOracles) : Prop :=
  ∀ t l m s, O.extractOne t l = some (m, s) → 0 ≤ s ∧ s ≤ 100

/-- Every cache entry stores exactly the pure value for its key: the
`"text_"`-keyed entries hold `textCore` of the lowered text, the
`"ua_"`-keyed entries hold `uaCore` of the user agent.  Both the cold
(empty) cache and every cache produced by the matcher satisfy this. -/
def CacheWF (O : TextOracles) (U : UAOracle) (c : Cache) : Prop :=
  ∀ e ∈ c, (∀ s, e.key = "text_" ++ s → e.val = textCore O s) ∧
           (∀ u, e.key = "ua_" ++ u → e.val = uaCore U u)

/-- The store's schema constraints on a procedure row: `quality_score`
is 0-5 (nullable), `success_rate` is 0-100 (nullable), `view_count` and
`ts_rank` are non-negative. -/
def RecordWF (p : ProcRecord) : Prop :=
  (∀ q, p.quality = some q → 0 ≤ q) ∧
  (∀ s, p.successRate = some s → 0 ≤ s) ∧
  0 ≤ p.viewCount ∧ 0 ≤ p.searchRank

/-- Descending order by `relevance_score`. -/
def SortedDescRel (l : List Scored) : Prop :=
  List.Pairwise (fun a b => b.relevance ≤ a.relevance) l

/-- A concrete text-analysis oracle (no regex hit, no fuzzy hit),
used to instantiate universally quantified statements. -/
def trivialTextOracles : TextOracles :=
  ⟨fun _ _ => none, fun _ _ => none, fun _ _ => 0⟩

/-- A concrete fingerprint-parser oracle (both parsers fail). -/
def trivialUAOracle : UAOracle :=
  ⟨fun _ => none, fun _ => none⟩

/-! ## Supporting lemmas: Python rounding -/

theorem rndHalfEven_ge {n : ℤ} {q : ℚ} (h : (n : ℚ) ≤ q) : n ≤ rndHalfEven q := by
  have hf : n ≤ ⌊q⌋ := Int.le_floor.mpr h
  unfold rndHalfEven
  dsimp only
  split
  · exact hf
  · split
    · omega
    · split <;> omega

theorem rndHalfEven_le {n : ℤ} {q : ℚ} (h : q ≤ (n : ℚ)) : rndHalfEven q ≤ n := by
  have hf : ⌊q⌋ ≤ n := by
    have h2 := Int.floor_le_floor h
    simpa using h2
  unfold rndHalfEven
  dsimp only
  by_cases h1 : q - (⌊q⌋ : ℚ) < 1/2
  · rw [if_pos h1]; exact hf
  · have hlt : ⌊q⌋ < n := by
      rcases lt_or_eq_of_le hf with h3 | h3
      · exact h3
      · exfalso
        apply h1
        have hq : q = (⌊q⌋ : ℚ) := by
          have := Int.floor_le q
          rw [h3] at this ⊢
          exact le_antisymm h this
        rw [← hq]
        norm_num
    rw [if_neg h1]
    split
    · omega
    · split <;> omega

theorem pyRound_le_of_le {q b : ℚ} (d : ℕ) {m : ℤ} (hb : b = (m : ℚ) / 10 ^ d)
    (h : q ≤ b) : pyRound q d ≤ b := by
  have h10 : (0 : ℚ) < 10 ^ d := by positivity
  have h2 : q * 10 ^ d ≤ (m : ℚ) := by
    rw [hb] at h
    calc q * 10 ^ d ≤ ((m : ℚ) / 10 ^ d) * 10 ^ d := by
          exact mul_le_mul_of_nonneg_right h (le_of_lt h10)
      _ = (m : ℚ) := by field_simp
  have h3 := rndHalfEven_le h2
  unfold pyRound
  rw [hb, div_le_div_iff_of_pos_right h10]
  exact_mod_cast h3

theorem pyRound_ge_of_ge {q b : ℚ} (d : ℕ) {m : ℤ} (hb : b = (m : ℚ) / 10 ^ d)
    (h : b ≤ q) : b ≤ pyRound q d := by
  have h10 : (0 : ℚ) < 10 ^ d := by positivity
  have h2 : (m : ℚ) ≤ q * 10 ^ d := by
    rw [hb] at h
    calc (m : ℚ) = ((m : ℚ) / 10 ^ d) * 10 ^ d := by field_simp
      _ ≤ q * 10 ^ d := mul_le_mul_of_nonneg_right h (le_of_lt h10)
  have h3 := rndHalfEven_ge h2
  unfold pyRound
  rw [hb, div_le_div_iff_of_pos_right h10]
  exact_mod_cast h3

theorem pyRound_eq_self {q : ℚ} (d : ℕ) {m : ℤ} (h : q = (m : ℚ) / 10 ^ d) :
    pyRound q d = q := by
  have h10 : (0 : ℚ) < 10 ^ d := by positivity
  have hq : q * 10 ^ d = (m : ℚ) := by rw [h]; field_simp
  unfold pyRound rndHalfEven
  dsimp only
  rw [hq, Int.floor_intCast]
  rw [if_pos (by norm_num)]
  rw [h]

theorem round3_mem_unit {q : ℚ} (h0 : 0 ≤ q) (h1 : q ≤ 1) :
    0 ≤ round3 q ∧ round3 q ≤ 1 := by
  constructor
  · exact pyRound_ge_of_ge 3 (show (0 : ℚ) = ((0 : ℤ) : ℚ) / 10 ^ 3 by norm_num) h0
  · exact pyRound_le_of_le 3 (show (1 : ℚ) = ((1000 : ℤ) : ℚ) / 10 ^ 3 by norm_num) h1

/-! ## Supporting lemmas: `pyMin` / `pyMax` -/

theorem pyMin_eq (a b : ℚ) : pyMin a b = min a b := by
  unfold pyMin
  rcases le_total a b with h | h
  · rw [if_pos h, min_eq_left h]
  · by_cases h2 : a ≤ b
    · rw [if_pos h2, min_eq_left h2]
    · rw [if_neg h2, min_eq_right h]

theorem pyMax_eq (a b : ℚ) : pyMax a b = max a b := by
  unfold pyMax
  rcases le_total b a with h | h
  · rw [if_pos h, max_eq_left h]
  · by_cases h2 : b ≤ a
    · rw [if_pos h2, max_eq_left h2]
    · rw [if_neg h2, max_eq_right h]

/-! ## Supporting lemmas: hybrid fusion -/

theorem fuse_none (fr : String → String → ℚ) (tm : DeviceMatch) :
    fuse fr tm none = tm := by
  show (if tm.confidence > 7/10 then tm else tm) = tm
  split <;> rfl

theorem pyMin_le_left (a b : ℚ) : pyMin a b ≤ a := by
  rw [pyMin_eq]; exact min_le_left a b

theorem pyMin_le_right (a b : ℚ) : pyMin a b ≤ b := by
  rw [pyMin_eq]; exact min_le_right a b

theorem le_pyMin {a b c : ℚ} (h1 : c ≤ a) (h2 : c ≤ b) : c ≤ pyMin a b := by
  rw [pyMin_eq]; exact le_min h1 h2

theorem pyMax_le {a b c : ℚ} (h1 : a ≤ c) (h2 : b ≤ c) : pyMax a b ≤ c := by
  rw [pyMax_eq]; exact max_le h1 h2

theorem le_pyMax_left (a b : ℚ) : a ≤ pyMax a b := by
  rw [pyMax_eq]; exact le_max_left a b

theorem le_pyMax_right (a b : ℚ) : b ≤ pyMax a b := by
  rw [pyMax_eq]; exact le_max_right a b

/-! ## Supporting lemmas: cache coherence -/

theorem key_inj {pre s t : String} (h : pre ++ s = pre ++ t) : s = t := by
  have h2 := congrArg String.data h
  rw [String.data_append, String.data_append] at h2
  have h3 := List.append_cancel_left h2
  cases s; cases t
  exact congrArg String.mk h3

theorem textKey_ne_uaKey (s u : String) : "text_" ++ s ≠ "ua_" ++ u := by
  intro h
  have h2 := congrArg String.data h
  rw [String.data_append, String.data_append] at h2
  have e1 : "text_".data = ['t', 'e', 'x', 't', '_'] := rfl
  have e2 : "ua_".data = ['u', 'a', '_'] := rfl
  rw [e1, e2] at h2
  simp at h2

theorem cacheLookup_text {O : TextOracles} {U : UAOracle} {c : Cache}
    (h : CacheWF O U c) (s : String) (now : ℚ) {v : DeviceMatch}
    (hl : cacheLookup c ("text_" ++ s) now = some v) : v = textCore O s := by
  unfold cacheLookup at hl
  cases hf : c.find? (fun e => e.key == "text_" ++ s) with
  | none => rw [hf] at hl; exact absurd hl (by simp)
  | some e =>
    rw [hf] at hl
    have he : e ∈ c := List.mem_of_find?_eq_some hf
    have hkey : e.key = "text_" ++ s := by
      have h2 := List.find?_some hf
      simpa using h2
    dsimp only at hl
    by_cases ht : now - e.time < 300
    · rw [if_pos ht] at hl
      injection hl with hv
      rw [← hv]
      exact (h e he).1 s hkey
    · rw [if_neg ht] at hl
      exact absurd hl (by simp)

theorem cacheLookup_ua {O : TextOracles} {U : UAOracle} {c : Cache}
    (h : CacheWF O U c) (u : String) (now : ℚ) {v : DeviceMatch}
    (hl : cacheLookup c ("ua_" ++ u) now = some v) : v = uaCore U u := by
  unfold cacheLookup at hl
  cases hf : c.find? (fun e => e.key == "ua_" ++ u) with
  | none => rw [hf] at hl; exact absurd hl (by simp)
  | some e =>
    rw [hf] at hl
    have he : e ∈ c := List.mem_of_find?_eq_some hf
    have hkey : e.key = "ua_" ++ u := by
      have h2 := List.find?_some hf
      simpa using h2
    dsimp only at hl
    by_cases ht : now - e.time < 300
    · rw [if_pos ht] at hl
      injection hl with hv
      rw [← hv]
      exact (h e he).2 u hkey
    · rw [if_neg ht] at hl
      exact absurd hl (by simp)

theorem cacheInsert_wf {O : TextOracles} {U : UAOracle} {c : Cache}
    (h : CacheWF O U c) {k : String} {v : DeviceMatch}
    (hk : (∀ s, k = "text_" ++ s → v = textCore O s) ∧
          (∀ u, k = "ua_" ++ u → v = uaCore U u))
    (now : ℚ) : CacheWF O U (cacheInsert c k v now) := by
  intro e he
  unfold cacheInsert at he
  rcases List.mem_cons.mp (List.take_subset _ _ he) with rfl | hmem
  · exact hk
  · exact h e (List.mem_of_mem_filter hmem)

theorem matchFromText_fst {O : TextOracles} {U : UAOracle} {c : Cache}
    (h : CacheWF O U c) (text : String) (now : ℚ) :
    (matchFromText O c text now).1 = textCore O (pyLower text) := by
  unfold matchFromText
  cases hl : cacheLookup c ("text_" ++ pyLower text) now with
  | none => simp [hl]
  | some v =>
    simp only [hl]
    exact cacheLookup_text h _ _ hl

theorem matchFromText_wf {O : TextOracles} {U : UAOracle} {c : Cache}
    (h : CacheWF O U c) (text : String) (now : ℚ) :
    CacheWF O U (matchFromText O c text now).2 := by
  unfold matchFromText
  cases hl : cacheLookup c ("text_" ++ pyLower text) now with
  | none =>
    simp only [hl]
    refine cacheInsert_wf h ⟨fun s hs => ?_, fun u hu => ?_⟩ now
    · rw [key_inj hs]
    · exact absurd hu (textKey_ne_uaKey _ _)
  | some v => simp only [hl]; exact h

theorem matchFromUA_fst {O : TextOracles} {U : UAOracle} {c : Cache}
    (h : CacheWF O U c) {ua : String} (hne : ua ≠ "") (now : ℚ) :
    (matchFromUA U c ua now).1 = uaCore U ua := by
  unfold matchFromUA
  rw [if_neg hne]
  cases hl : cacheLookup c ("ua_" ++ ua) now with
  | none => simp [hl]
  | some v =>
    simp only [hl]
    exact cacheLookup_ua h _ _ hl

theorem matchFromUA_wf {O : TextOracles} {U : UAOracle} {c : Cache}
    (h : CacheWF O U c) (ua : String) (now : ℚ) :
    CacheWF O U (matchFromUA U c ua now).2 := by
  unfold matchFromUA
  by_cases hne : ua = ""
  · rw [if_pos hne]; exact h
  · rw [if_neg hne]
    cases hl : cacheLookup c ("ua_" ++ ua) now with
    | none =>
      simp only [hl]
      refine cacheInsert_wf h ⟨fun s hs => ?_, fun u hu => ?_⟩ now
      · exact absurd hs.symm (textKey_ne_uaKey _ _)
      · rw [key_inj hu]
    | some v => simp only [hl]; exact h

theorem matchHybrid_fst {O : TextOracles} {U : UAOracle} {c : Cache}
    (h : CacheWF O U c) (text : String) (ua : Option String) (now : ℚ) :
    (matchHybrid O U c text ua now).1 = hybridPure O U text ua := by
  have hfst := matchFromText_fst h text now
  have hwf := matchFromText_wf h text now
  unfold matchHybrid hybridPure
  cases hmt : matchFromText O c text now with
  | mk tm c1 =>
    rw [hmt] at hfst hwf
    have h1 : tm = textCore O (pyLower text) := hfst
    have hwf1 : CacheWF O U c1 := hwf
    subst h1
    cases ua with
    | none => simp
    | some s =>
      by_cases hs : s = ""
      · simp [hs]
      · have hu := matchFromUA_fst hwf1 hs now
        cases hmu : matchFromUA U c1 s now with
        | mk um c2 =>
          rw [hmu] at hu
          have h2 : um = uaCore U s := hu
          subst h2
          simp [hs, hmu]

theorem matchHybrid_wf {O : TextOracles} {U : UAOracle} {c : Cache}
    (h : CacheWF O U c) (text : String) (ua : Option String) (now : ℚ) :
    CacheWF O U (matchHybrid O U c text ua now).2 := by
  have hwf := matchFromText_wf h text now
  unfold matchHybrid
  cases hmt : matchFromText O c text now with
  | mk tm c1 =>
    rw [hmt] at hwf
    have hwf1 : CacheWF O U c1 := hwf
    cases ua with
    | none => simpa using hwf1
    | some s =>
      by_cases hs : s = ""
      · simpa [hs] using hwf1
      · have hwu := matchFromUA_wf hwf1 s now
        cases hmu : matchFromUA U c1 s now with
        | mk um c2 =>
          rw [hmu] at hwu
          have hwu2 : CacheWF O U c2 := hwu
          simpa [hs, hmu] using hwu2

/-! ## Claim C9 -/

/-- C9: hybrid device fusion is deterministic and idempotent — two
invocations with identical inputs, the second running on the cache the
first produced (warm) or any coherent cache (cold included), return the
same `DeviceMatch`, whatever the two invocation times are. -/
theorem hybrid_deterministic_idempotent (O : TextOracles) (U : UAOracle)
    (c : Cache) (h : CacheWF O U c) (text : String) (ua : Option String)
    (t1 t2 : ℚ) :
    (matchHybrid O U (matchHybrid O U c text ua t1).2 text ua t2).1
      = (matchHybrid O U c text ua t1).1 := by
  rw [matchHybrid_fst (matchHybrid_wf h text ua t1) text ua t2,
      matchHybrid_fst h text ua t1]

/-- Witness for C9: a cold cache, a concrete message and user agent,
and two different invocation times. -/
theorem hybrid_deterministic_idempotent_witness :
    (matchHybrid trivialTextOracles trivialUAOracle
        (matchHybrid trivialTextOracles trivialUAOracle []
          "My iPhone 14 Pro screen is cracked" (some "Mozilla/5.0") 0).2
        "My iPhone 14 Pro screen is cracked" (some "Mozilla/5.0") 100).1
      = (matchHybrid trivialTextOracles trivialUAOracle []
          "My iPhone 14 Pro screen is cracked" (some "Mozilla/5.0") 0).1 :=
  hybrid_deterministic_idempotent trivialTextOracles trivialUAOracle []
    (by intro e he; exact absurd he (List.not_mem_nil e))
    "My iPhone 14 Pro screen is cracked" (some "Mozilla/5.0") 0 100

/-! ## Claim C10 -/

/-- C10: when no header string is supplied, `match_device_hybrid`
returns exactly the result of `match_device_from_text` — same brand,
model, type, confidence and source, in every branch including the
low-confidence one (and the cache evolves identically). -/
theorem hybrid_without_header_eq_text_match (O : TextOracles) (U : UAOracle)
    (c : Cache) (text : String) (now : ℚ) :
    matchHybrid O U c text none now = matchFromText O c text now := by
  cases hmt : matchFromText O c text now with
  | mk tm c1 => simp [matchHybrid, hmt, fuse_none]

/-! ## Claim C2 -/

/-- C2: when both the text match and the header match have confidence
above 0.8, agreement is checked as same brand case-insensitively and
model similarity above 70; on agreement the result carries the header's
brand/model/type with source `hybrid_perfect` and confidence
`min(0.98, avg + 0.1)`; on conflict it carries the header's
brand/model/type with source `hybrid_conflict` and confidence
`max(text, header) * 0.9`. -/
theorem hybrid_fusion_high_confidence (fr : String → String → ℚ)
    (tm um : DeviceMatch) (htm : tm.confidence > 8/10) (hum : um.confidence > 8/10) :
    (devicesMatch fr tm um =
      (pyLower tm.brand == pyLower um.brand && fr (pyLower tm.model) (pyLower um.model) > 70))
    ∧ (devicesMatch fr tm um = true →
        fuse fr tm (some um) =
          ⟨um.brand, um.model, um.dtype,
           min (98/100) ((tm.confidence + um.confidence) / 2 + 1/10), "hybrid_perfect"⟩)
    ∧ (devicesMatch fr tm um = false →
        fuse fr tm (some um) =
          ⟨um.brand, um.model, um.dtype,
           max tm.confidence um.confidence * (9/10), "hybrid_conflict"⟩) := by
  refine ⟨rfl, fun h => ?_, fun h => ?_⟩
  · simp [fuse, htm, hum, h, pyMin_eq]
  · simp [fuse, htm, hum, h, pyMax_eq]

/-- Witness for C2: the spec's own conflict example — text Apple at
0.85 versus header Samsung at 0.9 gives `hybrid_conflict`, Samsung,
confidence 0.81. -/
theorem hybrid_fusion_high_confidence_witness :
    fuse (fun _ _ => (0 : ℚ))
        ⟨"Apple", "iPhone 14 Pro", "Smartphone", 85/100, "text_pattern"⟩
        (some ⟨"Samsung", "Galaxy", "Smartphone", 9/10, "user_agent_matomo"⟩)
      = ⟨"Samsung", "Galaxy", "Smartphone", 81/100, "hybrid_conflict"⟩ := by
  have h := (hybrid_fusion_high_confidence (fun _ _ => (0 : ℚ))
      ⟨"Apple", "iPhone 14 Pro", "Smartphone", 85/100, "text_pattern"⟩
      ⟨"Samsung", "Galaxy", "Smartphone", 9/10, "user_agent_matomo"⟩
      (by norm_num) (by norm_num)).2.2 (by decide)
  rw [h]
  congr 1
  rw [max_eq_right (by norm_num : (85 : ℚ)/100 ≤ 9/10)]
  norm_num

/-! ## Supporting lemmas: confidence bounds in the device matcher -/

theorem scanPatterns_bounds {O : TextOracles} (hO : OracleBounds O)
    (brand textLower : String) (ps : List PatternInfo) :
    ∀ m : DeviceMatch, scanPatterns O brand textLower ps = some m →
      0 ≤ m.confidence ∧ m.confidence ≤ 95/100 := by
  induction ps with
  | nil => intro m hm; exact absurd hm (by simp [scanPatterns])
  | cons p rest ih =>
    intro m hm
    unfold scanPatterns at hm
    cases hre : O.reSearch p.pattern textLower with
    | none => rw [hre] at hm; exact ih m hm
    | some key =>
      rw [hre] at hm
      dsimp only at hm
      by_cases hpos : (match p.models.lookup key with
            | some ms => ms
            | none => (p.models.lookup "").getD []) ≠ []
      · rw [if_pos hpos] at hm
        cases hex : O.extractOne textLower (match p.models.lookup key with
            | some ms => ms
            | none => (p.models.lookup "").getD []) with
        | none => rw [hex] at hm; exact ih m hm
        | some r =>
          rw [hex] at hm
          obtain ⟨mm, score⟩ := r
          dsimp only at hm
          by_cases hsc : score > 60
          · rw [if_pos hsc] at hm
            injection hm with hm2
            obtain ⟨h0, h100⟩ := hO textLower _ mm score hex
            rw [← hm2]
            refine ⟨le_pyMin (by norm_num) (by positivity), ?_⟩
            exact pyMin_le_left _ _
          · rw [if_neg hsc] at hm; exact ih m hm
      · rw [if_neg hpos] at hm; exact ih m hm

theorem scanBrands_bounds {O : TextOracles} (hO : OracleBounds O)
    (textLower : String) (bps : List (String × List PatternInfo)) :
    ∀ best : DeviceMatch, 0 ≤ best.confidence → best.confidence ≤ 95/100 →
      0 ≤ (scanBrands O textLower bps best).confidence
      ∧ (scanBrands O textLower bps best).confidence ≤ 95/100 := by
  induction bps with
  | nil => intro best h0 h1; exact ⟨h0, h1⟩
  | cons bp rest ih =>
    intro best h0 h1
    obtain ⟨brand, ps⟩ := bp
    unfold scanBrands
    dsimp only
    have hbest' : 0 ≤ (match scanPatterns O brand textLower ps with
          | some m => m | none => best).confidence
        ∧ (match scanPatterns O brand textLower ps with
          | some m => m | none => best).confidence ≤ 95/100 := by
      cases hsp : scanPatterns O brand textLower ps with
      | none => exact ⟨h0, h1⟩
      | some m => exact scanPatterns_bounds hO brand textLower ps m hsp
    split_ifs
    · exact hbest'
    · exact ih _ hbest'.1 hbest'.2

theorem textCore_bounds {O : TextOracles} (hO : OracleBounds O) (textLower : String) :
    0 ≤ (textCore O textLower).confidence ∧ (textCore O textLower).confidence ≤ 95/100 := by
  unfold textCore
  have hb := scanBrands_bounds hO textLower devicePatterns unknownText
    (by norm_num [unknownText]) (by norm_num [unknownText])
  dsimp only
  split_ifs
  · cases hdb : detectBrand textLower with
    | none => simpa [hdb] using hb
    | some brand =>
      simp only [hdb]
      split_ifs <;> norm_num
  · exact hb

theorem uaCore_bounds (U : UAOracle) (ua : String) :
    0 ≤ (uaCore U ua).confidence ∧ (uaCore U ua).confidence ≤ 9/10 := by
  unfold uaCore
  cases hm : U.matomo ua with
  | none => exact ⟨by norm_num [unknownUA], by norm_num [unknownUA]⟩
  | some f =>
    dsimp only
    by_cases hmt : (f.isMobile || f.isTablet) = true
    · rw [if_pos hmt]
      split_ifs <;> exact ⟨by norm_num, by norm_num⟩
    · rw [if_neg hmt]
      cases ha : U.alt ua with
      | none => exact ⟨by norm_num [unknownUA], by norm_num [unknownUA]⟩
      | some a =>
        obtain ⟨ab, am, af⟩ := a
        cases ab <;> cases am <;>
          exact ⟨by norm_num [unknownUA], by norm_num [unknownUA]⟩

theorem fuse_confidence_bounds (fr : String → String → ℚ) (tm : DeviceMatch)
    (uam : Option DeviceMatch)
    (h0 : 0 ≤ tm.confidence) (h1 : tm.confidence ≤ 95/100)
    (hum : ∀ um ∈ uam, 0 ≤ um.confidence ∧ um.confidence ≤ 9/10) :
    0 ≤ (fuse fr tm uam).confidence ∧ (fuse fr tm uam).confidence ≤ 1 := by
  cases uam with
  | none => rw [fuse_none]; exact ⟨h0, le_trans h1 (by norm_num)⟩
  | some um =>
    obtain ⟨hu0, hu1⟩ := hum um (by simp)
    unfold fuse
    dsimp only
    by_cases hc1 : um.confidence > 8/10
    · rw [if_pos hc1]
      by_cases hc2 : tm.confidence > 8/10
      · rw [if_pos hc2]
        by_cases hdm : devicesMatch fr tm um = true
        · rw [if_pos hdm]
          exact ⟨le_pyMin (by norm_num) (by linarith),
            le_trans (pyMin_le_left _ _) (by norm_num)⟩
        · rw [if_neg hdm]
          have hmax0 : (0:ℚ) ≤ pyMax tm.confidence um.confidence :=
            le_trans h0 (le_pyMax_left _ _)
          have hmax1 : pyMax tm.confidence um.confidence ≤ 95/100 :=
            pyMax_le h1 (le_trans hu1 (by norm_num))
          constructor
          · positivity
          · calc pyMax tm.confidence um.confidence * (9/10)
                ≤ (95/100) * (9/10) := by
                  exact mul_le_mul_of_nonneg_right hmax1 (by norm_num)
              _ ≤ 1 := by norm_num
      · rw [if_neg hc2]
        exact ⟨hu0, le_trans hu1 (by norm_num)⟩
    · rw [if_neg hc1]
      by_cases hc3 : tm.confidence > 7/10
      · rw [if_pos hc3]
        by_cases hc4 : um.confidence > 3/10
        · rw [if_pos hc4]
          exact ⟨by linarith, by linarith⟩
        · rw [if_neg hc4]
          exact ⟨h0, by linarith⟩
      · rw [if_neg hc3]
        by_cases hc5 : um.confidence > tm.confidence
        · rw [if_pos hc5]
          exact ⟨hu0, by linarith⟩
        · rw [if_neg hc5]
          exact ⟨h0, by linarith⟩

theorem hybridPure_confidence_bounds {O : TextOracles} (hO : OracleBounds O)
    (U : UAOracle) (text : String) (ua : Option String) :
    0 ≤ (hybridPure O U text ua).confidence ∧ (hybridPure O U text ua).confidence ≤ 1 := by
  obtain ⟨ht0, ht1⟩ := textCore_bounds hO (pyLower text)
  unfold hybridPure
  cases ua with
  | none => exact fuse_confidence_bounds _ _ none ht0 ht1 (by simp)
  | some s =>
    dsimp only
    split_ifs
    · refine fuse_confidence_bounds _ _ _ ht0 ht1 ?_
      intro um hmem
      rw [Option.mem_def, Option.some.injEq] at hmem
      rw [← hmem]
      exact uaCore_bounds U s
    · exact fuse_confidence_bounds _ _ none ht0 ht1 (by simp)

theorem matchHybrid_confidence_bounds {O : TextOracles} {U : UAOracle} {c : Cache}
    (hO : OracleBounds O) (hwf : CacheWF O U c) (text : String)
    (ua : Option String) (now : ℚ) :
    0 ≤ (matchHybrid O U c text ua now).1.confidence
    ∧ (matchHybrid O U c text ua now).1.confidence ≤ 1 := by
  rw [matchHybrid_fst hwf text ua now]
  exact hybridPure_confidence_bounds hO U text ua

/-! ## Supporting lemmas: deduplication -/

theorem dedup_mem_iff (l : List ProcRecord) :
    ∀ (seen : List ℕ) (i : ℕ),
      i ∈ (dedupById seen l).map (·.pid) ↔ (i ∈ l.map (·.pid) ∧ i ∉ seen) := by
  induction l with
  | nil => intro seen i; simp [dedupById]
  | cons p rest ih =>
    intro seen i
    by_cases hp : p.pid ∈ seen
    · rw [show dedupById seen (p :: rest) = dedupById seen rest from by
        simp [dedupById, hp]]
      rw [ih seen i]
      simp only [List.map_cons, List.mem_cons]
      constructor
      · rintro ⟨hi, hns⟩; exact ⟨Or.inr hi, hns⟩
      · rintro ⟨hi | hi, hns⟩
        · exact absurd (hi ▸ hp) hns
        · exact ⟨hi, hns⟩
    · rw [show dedupById seen (p :: rest) = p :: dedupById (p.pid :: seen) rest from by
        simp [dedupById, hp]]
      simp only [List.map_cons, List.mem_cons]
      rw [ih (p.pid :: seen) i]
      by_cases hip : i = p.pid
      · subst hip; simp [hp]
      · simp [hip, List.mem_cons]

theorem dedup_nodup (l : List ProcRecord) :
    ∀ seen : List ℕ, ((dedupById seen l).map (·.pid)).Nodup := by
  induction l with
  | nil => intro seen; simp [dedupById]
  | cons p rest ih =>
    intro seen
    by_cases hp : p.pid ∈ seen
    · rw [show dedupById seen (p :: rest) = dedupById seen rest from by
        simp [dedupById, hp]]
      exact ih seen
    · rw [show dedupById seen (p :: rest) = p :: dedupById (p.pid :: seen) rest from by
        simp [dedupById, hp]]
      rw [List.map_cons, List.nodup_cons]
      refine ⟨fun hmem => ?_, ih (p.pid :: seen)⟩
      have := (dedup_mem_iff rest (p.pid :: seen) p.pid).mp hmem
      exact this.2 (List.mem_cons_self _ _)

theorem dedup_find (l : List ProcRecord) :
    ∀ (seen : List ℕ) (r : ProcRecord), r ∈ dedupById seen l →
      l.find? (fun p => p.pid == r.pid) = some r := by
  induction l with
  | nil => intro seen r hr; simp [dedupById] at hr
  | cons p rest ih =>
    intro seen r hr
    by_cases hp : p.pid ∈ seen
    · rw [show dedupById seen (p :: rest) = dedupById seen rest from by
        simp [dedupById, hp]] at hr
      have hrp : r.pid ∉ seen := by
        have hm : r.pid ∈ (dedupById seen rest).map (·.pid) :=
          List.mem_map_of_mem (·.pid) hr
        exact ((dedup_mem_iff rest seen r.pid).mp hm).2
      have hne : (p.pid == r.pid) = false := by
        simp only [beq_eq_false_iff_ne, ne_eq]
        intro hEq
        exact hrp (hEq ▸ hp)
      rw [List.find?_cons_of_neg _ (by simp [hne])]
      exact ih seen r hr
    · rw [show dedupById seen (p :: rest) = p :: dedupById (p.pid :: seen) rest from by
        simp [dedupById, hp]] at hr
      rcases List.mem_cons.mp hr with rfl | hr2
      · exact List.find?_cons_of_pos _ (by simp)
      · have hrp : r.pid ∉ p.pid :: seen := by
          have hm : r.pid ∈ (dedupById (p.pid :: seen) rest).map (·.pid) :=
            List.mem_map_of_mem (·.pid) hr2
          exact ((dedup_mem_iff rest (p.pid :: seen) r.pid).mp hm).2
        have hne : r.pid ≠ p.pid := fun hEq => hrp (hEq ▸ List.mem_cons_self _ _)
        rw [List.find?_cons_of_neg _ (by simp [Ne.symm hne])]
        exact ih (p.pid :: seen) r hr2

/-! ## Claim C3 -/

/-- C3: merging the exact, fuzzy and generic strategy results (in that
order) and deduplicating by id yields each id exactly once; the ids are
exactly those of the three inputs; and the record kept for an id is the
first occurrence in the concatenation — i.e. the one from the
earliest-executed strategy. -/
theorem merge_dedup_by_id (exact fuzzy generic : List ProcRecord) :
    ((mergeStrategies exact fuzzy generic).map (·.pid)).Nodup
    ∧ (∀ i : ℕ, i ∈ (mergeStrategies exact fuzzy generic).map (·.pid) ↔
          i ∈ (exact ++ fuzzy ++ generic).map (·.pid))
    ∧ (∀ r ∈ mergeStrategies exact fuzzy generic,
          (exact ++ fuzzy ++ generic).find? (fun p => p.pid == r.pid) = some r) := by
  refine ⟨dedup_nodup _ [], fun i => ?_, fun r hr => dedup_find _ [] r hr⟩
  rw [mergeStrategies, dedup_mem_iff]
  simp

/-- Witness for C3: the fuzzy strategy returns a record with the same
id as an exact-strategy record; the merged set keeps the exact one. -/
theorem merge_dedup_by_id_witness :
    ((mergeStrategies [⟨5, ["apple"], [], [], [], [], [], none, none, 0, 1, 2⟩]
        [⟨5, [], [], [], [], [], [], none, none, 0, 1/2, 3⟩] []).map (·.pid)).Nodup
    ∧ ([⟨5, ["apple"], [], [], [], [], [], none, none, 0, 1, 2⟩,
        ⟨5, [], [], [], [], [], [], none, none, 0, 1/2, 3⟩] : List ProcRecord).find?
          (fun p => p.pid == 5)
        = some ⟨5, ["apple"], [], [], [], [], [], none, none, 0, 1, 2⟩ := by
  have h := merge_dedup_by_id [⟨5, ["apple"], [], [], [], [], [], none, none, 0, 1, 2⟩]
    [⟨5, [], [], [], [], [], [], none, none, 0, 1/2, 3⟩] []
  refine ⟨h.1, ?_⟩
  have h2 := h.2.2 ⟨5, ["apple"], [], [], [], [], [], none, none, 0, 1, 2⟩ (by decide)
  simpa using h2

/-! ## Claim C7 -/

/-- C7: the difficulty-appropriateness feature equals
`max(1 − (d−1)/maxDifficulty × 0.3, 0.6)` within the skill ceiling and
`max(0.3 − 0.1 × (d − maxDifficulty), 0)` above it; a beginner
(ceiling 2) against difficulty 4 scores exactly 0.1. -/
theorem difficulty_appropriateness_formula (p : MLProcedure) (u : UserContext)
    (h1 : 1 ≤ p.difficulty) (h5 : p.difficulty ≤ 5) :
    (calcDifficultyAppropriateness p (some u) =
       (let maxD := ((skillMaxDifficulty.lookup u.skillLevel).getD 4)
        if p.difficulty ≤ maxD then max (1 - (p.difficulty - 1) / maxD * (3/10)) (6/10)
        else max (3/10 - (p.difficulty - maxD) * (1/10)) 0))
    ∧ (u.skillLevel = "beginner" → p.difficulty = 4 →
        calcDifficultyAppropriateness p (some u) = 1/10) := by
  refine ⟨?_, fun hs hd => ?_⟩
  · simp only [calcDifficultyAppropriateness, pyMax_eq]
  · simp [calcDifficultyAppropriateness, hs, hd, skillMaxDifficulty, List.lookup, pyMax_eq]
    norm_num

/-- Witness for C7: a difficulty-4 procedure scored for a beginner. -/
theorem difficulty_appropriateness_formula_witness :
    calcDifficultyAppropriateness ⟨1, "", "", "", "", 4, 4, 0⟩
      (some ⟨"beginner", false, false⟩) = 1/10 :=
  (difficulty_appropriateness_formula ⟨1, "", "", "", "", 4, 4, 0⟩
      ⟨"beginner", false, false⟩ (by norm_num) (by norm_num)).2 rfl rfl

/-! ## Supporting lemmas: the stable descending sort of `_rank_procedures` -/

theorem mem_insDesc (x : Scored) (l : List Scored) (a : Scored) :
    a ∈ insDesc x l ↔ a = x ∨ a ∈ l := by
  induction l with
  | nil => simp [insDesc]
  | cons y ys ih =>
    unfold insDesc
    by_cases hxy : x.relevance ≤ y.relevance
    · rw [if_pos hxy]
      rw [List.mem_cons, ih, List.mem_cons]
      tauto
    · rw [if_neg hxy]
      rw [List.mem_cons]

theorem insDesc_sorted (x : Scored) (l : List Scored) (h : SortedDescRel l) :
    SortedDescRel (insDesc x l) := by
  induction l with
  | nil => simp [insDesc, SortedDescRel]
  | cons y ys ih =>
    simp only [SortedDescRel, List.pairwise_cons] at h
    obtain ⟨hy, hys⟩ := h
    unfold insDesc
    by_cases hxy : x.relevance ≤ y.relevance
    · rw [if_pos hxy]
      simp only [SortedDescRel, List.pairwise_cons]
      refine ⟨fun b hb => ?_, ih hys⟩
      rcases (mem_insDesc x ys b).mp hb with rfl | hb2
      · exact hxy
      · exact hy b hb2
    · rw [if_neg hxy]
      simp only [SortedDescRel, List.pairwise_cons]
      refine ⟨fun b hb => ?_, ?_⟩
      · rcases List.mem_cons.mp hb with rfl | hb2
        · exact le_of_lt (lt_of_not_le hxy)
        · exact le_trans (hy b hb2) (le_of_lt (lt_of_not_le hxy))
      · exact ⟨hy, hys⟩

theorem insDesc_filter (x : Scored) (l : List Scored) (c : ℚ) (h : SortedDescRel l) :
    (insDesc x l).filter (fun a => a.relevance == c) =
      l.filter (fun a => a.relevance == c) ++ (if x.relevance == c then [x] else []) := by
  induction l with
  | nil =>
    cases hxc : (x.relevance == c) with
    | true => simp [insDesc, List.filter, hxc]
    | false => simp [insDesc, List.filter, hxc]
  | cons y ys ih =>
    simp only [SortedDescRel, List.pairwise_cons] at h
    obtain ⟨hy, hys⟩ := h
    unfold insDesc
    by_cases hxy : x.relevance ≤ y.relevance
    · rw [if_pos hxy, List.filter_cons, List.filter_cons, ih hys]
      by_cases hyc : (y.relevance == c) = true
      · simp [hyc]
      · simp [hyc]
    · rw [if_neg hxy, List.filter_cons]
      by_cases hxc : (x.relevance == c) = true
      · have hc : x.relevance = c := by simpa using hxc
        have hnil : (y :: ys).filter (fun a => a.relevance == c) = [] := by
          rw [List.filter_eq_nil_iff]
          intro b hb
          have hble : b.relevance ≤ y.relevance := by
            rcases List.mem_cons.mp hb with rfl | hb2
            · exact le_refl _
            · exact hy b hb2
          have : b.relevance < c := hc ▸ lt_of_le_of_lt hble (lt_of_not_le hxy)
          simp [ne_of_lt this]
        rw [hxc, hnil]
        simp [hxc]
      · have hxc2 : (x.relevance == c) = false := by
          cases hb : (x.relevance == c) with
          | true => exact absurd hb hxc
          | false => rfl
        rw [hxc2]
        simp [hxc2]

theorem foldl_insDesc_filter (l : List Scored) :
    ∀ (acc : List Scored) (c : ℚ), SortedDescRel acc →
      ((l.foldl (fun acc x => insDesc x acc) acc).filter (fun a => a.relevance == c))
        = acc.filter (fun a => a.relevance == c) ++ l.filter (fun a => a.relevance == c) := by
  induction l with
  | nil => intro acc c _; simp
  | cons x xs ih =>
    intro acc c hacc
    rw [List.foldl_cons, ih (insDesc x acc) c (insDesc_sorted x acc hacc),
        insDesc_filter x acc c hacc, List.filter_cons]
    by_cases hxc : (x.relevance == c) = true
    · simp [hxc]
    · simp [hxc]

theorem foldl_insDesc_sorted (l : List Scored) :
    ∀ acc : List Scored, SortedDescRel acc →
      SortedDescRel (l.foldl (fun acc x => insDesc x acc) acc) := by
  induction l with
  | nil => intro acc hacc; simpa using hacc
  | cons x xs ih =>
    intro acc hacc
    rw [List.foldl_cons]
    exact ih (insDesc x acc) (insDesc_sorted x acc hacc)

theorem sortDesc_sorted (l : List Scored) : SortedDescRel (sortDesc l) :=
  foldl_insDesc_sorted l [] (by simp [SortedDescRel])

theorem sortDesc_stable (l : List Scored) (c : ℚ) :
    (sortDesc l).filter (fun a => a.relevance == c) =
      l.filter (fun a => a.relevance == c) := by
  rw [sortDesc, foldl_insDesc_filter l [] c (by simp [SortedDescRel])]
  simp

/-! ## Claim C6 -/

/-- C6 (amended): the ranking is a stable sort descending by
`relevance_score` alone — any two candidates with equal
`relevance_score` keep their arrival order, whatever their stored
quality scores (the sort key of `_rank_procedures` line 234 is only
`relevance_score`). -/
theorem ranking_stable_by_arrival (procs : List ProcRecord)
    (dev : DeviceInfo) (prob : ProblemQuery) :
    SortedDescRel (rankProcedures procs dev prob)
    ∧ (∀ c : ℚ, (rankProcedures procs dev prob).filter (fun a => a.relevance == c)
        = (procs.map (scoreProcedure dev prob)).filter (fun a => a.relevance == c)) :=
  ⟨sortDesc_sorted _, fun c => sortDesc_stable _ c⟩

/-- Model of `round(·, 3)` fixes every integer multiple of `1/1000`. -/
theorem round3_thousandths (m : ℤ) : round3 ((m : ℚ) / 1000) = (m : ℚ) / 1000 :=
  @pyRound_eq_self ((m : ℚ) / 1000) 3 m (by norm_num)

/-- Counterexample to C6 as stated: two candidates with equal
`relevance_score` (0.1 each) whose stored quality scores are 0 and 5;
the claim's quality tie-break would put the quality-5 record first, but
the code keeps arrival order (id 1 before id 2). -/
theorem ranking_quality_tiebreak_cex :
    ((rankProcedures
        [⟨1, [], [], [], [], [], [], some 0, none, 0, 1, 3⟩,
         ⟨2, [], [], [], [], [], [], some 5, none, 0, 0, 3⟩]
        ⟨"Unknown", "Unknown Model", "Unknown Device"⟩
        ⟨"General", "unknown_issue", ""⟩).map
          (fun s => (s.proc.pid, s.relevance, s.proc.quality)))
      = [(1, 1/10, some 0), (2, 1/10, some 5)] := by
  have e0 : round3 (0 : ℚ) = 0 := by
    have h := round3_thousandths 0; norm_num at h; simpa using h
  have e1 : round3 (1 : ℚ) = 1 := by
    have h := round3_thousandths 1000; norm_num at h; simpa using h
  have eT : round3 (1/10 : ℚ) = 1/10 := by
    have h := round3_thousandths 100; norm_num at h; simpa using h
  have eH : round3 (1/2 : ℚ) = 1/2 := by
    have h := round3_thousandths 500; norm_num at h; simpa using h
  have hs1 : scoreProcedure ⟨"Unknown", "Unknown Model", "Unknown Device"⟩
      ⟨"General", "unknown_issue", ""⟩ ⟨1, [], [], [], [], [], [], some 0, none, 0, 1, 3⟩
      = ⟨⟨1, [], [], [], [], [], [], some 0, none, 0, 1, 3⟩, 1/10, 0, 0, 0, 1⟩ := by
    simp [scoreProcedure, scoreDeviceCompat, scoreProblemRelevance, scoreQualityMetrics, pyMin]
    norm_num [e0, e1, eT]
  have hs2 : scoreProcedure ⟨"Unknown", "Unknown Model", "Unknown Device"⟩
      ⟨"General", "unknown_issue", ""⟩ ⟨2, [], [], [], [], [], [], some 5, none, 0, 0, 3⟩
      = ⟨⟨2, [], [], [], [], [], [], some 5, none, 0, 0, 3⟩, 1/10, 0, 0, 1/2, 0⟩ := by
    simp [scoreProcedure, scoreDeviceCompat, scoreProblemRelevance, scoreQualityMetrics, pyMin]
    norm_num [e0, eH, eT]
  rw [rankProcedures]
  simp only [List.map_cons, List.map_nil, hs1, hs2]
  rw [sortDesc]
  simp [insDesc]

/-! ## Supporting lemmas: score bounds in the knowledge-base ranker -/

theorem scoreDeviceCompat_bounds (p : ProcRecord) (dev : DeviceInfo) :
    0 ≤ scoreDeviceCompat p dev ∧ scoreDeviceCompat p dev ≤ 1 := by
  unfold scoreDeviceCompat
  refine ⟨le_pyMin ?_ (by norm_num), pyMin_le_right _ _⟩
  split_ifs <;> norm_num

theorem scoreProblemRelevance_bounds (p : ProcRecord) (prob : ProblemQuery) :
    0 ≤ scoreProblemRelevance p prob ∧ scoreProblemRelevance p prob ≤ 1 := by
  unfold scoreProblemRelevance
  refine ⟨le_pyMin ?_ (by norm_num), pyMin_le_right _ _⟩
  dsimp only
  by_cases hk : p.aiKeywords ≠ []
  · rw [if_pos hk]
    have hb : (0:ℚ) ≤ pyMin
        (((List.filter (fun kw =>
            hasSub (pyLower (prob.description ++ " " ++ prob.category ++ " " ++ prob.issue))
              (pyLower kw)) p.aiKeywords).length : ℚ) / (p.aiKeywords.length : ℚ)) (2/10) :=
      le_pyMin (by positivity) (by norm_num)
    split_ifs <;> linarith
  · rw [if_neg hk]
    split_ifs <;> norm_num

theorem scoreQualityMetrics_bounds (p : ProcRecord)
    (hq : ∀ q, p.quality = some q → 0 ≤ q)
    (hs : ∀ s, p.successRate = some s → 0 ≤ s)
    (hv : 0 ≤ p.viewCount) :
    0 ≤ scoreQualityMetrics p ∧ scoreQualityMetrics p ≤ 1 := by
  unfold scoreQualityMetrics
  refine ⟨le_pyMin ?_ (by norm_num), pyMin_le_right _ _⟩
  have h1 : (0:ℚ) ≤ (match p.quality with
      | some q => q / 5 * (5/10) | none => 0) := by
    cases hqq : p.quality with
    | none => norm_num
    | some q => have := hq q hqq; positivity
  have h2 : (0:ℚ) ≤ (match p.successRate with
      | some s => s / 100 * (3/10) | none => 0) := by
    cases hss : p.successRate with
    | none => norm_num
    | some s => have := hs s hss; positivity
  have h3 : (0:ℚ) ≤ pyMin (p.viewCount / 100) 1 * (2/10) := by
    have := le_pyMin (c := (0:ℚ)) (a := p.viewCount / 100) (b := 1) (by positivity) (by norm_num)
    linarith
  linarith

theorem scoreProcedure_relevance_bounds (dev : DeviceInfo) (prob : ProblemQuery)
    (p : ProcRecord) (hwf : RecordWF p) :
    0 ≤ (scoreProcedure dev prob p).relevance ∧ (scoreProcedure dev prob p).relevance ≤ 1 := by
  obtain ⟨hq, hs, hv, hr⟩ := hwf
  obtain ⟨hd0, hd1⟩ := scoreDeviceCompat_bounds p dev
  obtain ⟨hp0, hp1⟩ := scoreProblemRelevance_bounds p prob
  obtain ⟨hq0, hq1⟩ := scoreQualityMetrics_bounds p hq hs hv
  have hs0 : (0:ℚ) ≤ pyMin p.searchRank 1 := le_pyMin hr (by norm_num)
  have hs1 : pyMin p.searchRank 1 ≤ 1 := pyMin_le_right _ _
  unfold scoreProcedure
  dsimp only
  apply round3_mem_unit
  · nlinarith
  · nlinarith

/-! ## Supporting lemmas: bounds in the ML re-scorer -/

theorem calcModelSimilarity_bounds (userModel procModels : String) :
    0 ≤ calcModelSimilarity userModel procModels
    ∧ calcModelSimilarity userModel procModels ≤ 1 := by
  unfold calcModelSimilarity
  dsimp only
  by_cases h1 : userModel = "" ∨ procModels = ""
  · rw [if_pos h1]; norm_num
  · rw [if_neg h1]
    by_cases h2 : hasSub (pyLower procModels) (pyLower userModel) = true
    · rw [if_pos h2]; norm_num
    · rw [if_neg h2]
      by_cases h3 : (pySplit (pyLower userModel)).dedup ≠ []
          ∧ (pySplit (pyLower procModels)).dedup ≠ []
      · rw [if_pos h3]
        have hlen : 0 < ((pySplit (pyLower userModel)).dedup.length : ℚ) := by
          have := List.length_pos.mpr h3.1
          exact_mod_cast this
        constructor
        · positivity
        · rw [div_le_one hlen]
          exact_mod_cast List.length_filter_le _ _
      · rw [if_neg h3]; norm_num

theorem calcDeviceSimilarity_bounds (p : MLProcedure) (dev : DeviceInfo) :
    0 ≤ calcDeviceSimilarity p dev ∧ calcDeviceSimilarity p dev ≤ 1 := by
  unfold calcDeviceSimilarity
  obtain ⟨hm0, hm1⟩ := calcModelSimilarity_bounds dev.model p.modelsStr
  split_ifs <;> constructor <;> nlinarith

theorem calcProblemSimilarity_bounds (p : MLProcedure) (prob : ProblemQuery) :
    0 ≤ calcProblemSimilarity p prob ∧ calcProblemSimilarity p prob ≤ 1 := by
  unfold calcProblemSimilarity
  dsimp only
  by_cases h1 : pyLower p.problemCategory = pyLower prob.category
  · rw [if_pos h1]; norm_num
  · rw [if_neg h1]
    by_cases h2 : (pySplit (pyLower p.problemCategory)).dedup ≠ []
        ∧ (pySplit (pyLower prob.category)).dedup ≠ []
    · rw [if_pos h2]
      by_cases h3 : ((pySplit (pyLower p.problemCategory)).dedup ++
          (pySplit (pyLower prob.category)).dedup.filter
            (· ∉ (pySplit (pyLower p.problemCategory)).dedup)).length > 0
      · rw [if_pos h3]
        have hpos : (0:ℚ) <
            (((pySplit (pyLower p.problemCategory)).dedup ++
              (pySplit (pyLower prob.category)).dedup.filter
                (· ∉ (pySplit (pyLower p.problemCategory)).dedup)).length : ℚ) := by
          exact_mod_cast h3
        constructor
        · positivity
        · rw [div_le_one hpos]
          have hle : ((pySplit (pyLower p.problemCategory)).dedup.filter
                (· ∈ (pySplit (pyLower prob.category)).dedup)).length
              ≤ ((pySplit (pyLower p.problemCategory)).dedup ++
                (pySplit (pyLower prob.category)).dedup.filter
                  (· ∉ (pySplit (pyLower p.problemCategory)).dedup)).length := by
            rw [List.length_append]
            have := List.length_filter_le (· ∈ (pySplit (pyLower prob.category)).dedup)
              (pySplit (pyLower p.problemCategory)).dedup
            omega
          exact_mod_cast hle
      · rw [if_neg h3]; norm_num
    · rw [if_neg h2]; norm_num

theorem skill_maxDifficulty_pos (s : String) :
    0 < ((skillMaxDifficulty.lookup s).getD 4) := by
  unfold skillMaxDifficulty
  simp only [List.lookup]
  cases s == "beginner" with
  | true => norm_num
  | false =>
    cases s == "intermediate" with
    | true => norm_num
    | false =>
      cases s == "expert" with
      | true => norm_num
      | false =>
        cases s == "professional" with
        | true => norm_num
        | false => norm_num

theorem calcDifficultyAppropriateness_bounds (p : MLProcedure) (uc : Option UserContext)
    (hd : 1 ≤ p.difficulty) :
    0 ≤ calcDifficultyAppropriateness p uc ∧ calcDifficultyAppropriateness p uc ≤ 1 := by
  unfold calcDifficultyAppropriateness
  cases uc with
  | none => norm_num
  | some u =>
    dsimp only
    have hpos := skill_maxDifficulty_pos u.skillLevel
    split_ifs with hle
    · constructor
      · exact le_trans (by norm_num) (le_pyMax_right _ _)
      · apply pyMax_le
        · have hnn : 0 ≤ (p.difficulty - 1) / ((skillMaxDifficulty.lookup u.skillLevel).getD 4) * (3/10) := by
            have h1 : (0:ℚ) ≤ p.difficulty - 1 := by linarith
            positivity
          linarith
        · norm_num
    · constructor
      · exact le_pyMax_right _ _
      · apply pyMax_le
        · have h1 : (0:ℚ) < p.difficulty - ((skillMaxDifficulty.lookup u.skillLevel).getD 4) := by
            push_neg at hle
            linarith
          nlinarith
        · norm_num

theorem calcUserContextScore_bounds (p : MLProcedure) (uc : Option UserContext) :
    0 ≤ calcUserContextScore p uc ∧ calcUserContextScore p uc ≤ 1 := by
  unfold calcUserContextScore
  cases uc with
  | none => norm_num
  | some u =>
    dsimp only
    refine ⟨le_pyMin ?_ (by norm_num), pyMin_le_right _ _⟩
    split_ifs <;> norm_num

theorem calcSuccessRateScore_bounds (p : MLProcedure) (jitter : ℚ) :
    0 ≤ calcSuccessRateScore p jitter ∧ calcSuccessRateScore p jitter ≤ 1 := by
  unfold calcSuccessRateScore
  refine ⟨le_pyMax_right _ _, pyMax_le (pyMin_le_right _ _) (by norm_num)⟩

theorem mlScore_bounds (p : MLProcedure) (dev : DeviceInfo) (prob : ProblemQuery)
    (uc : Option UserContext) (jitter : ℚ) (hd : 1 ≤ p.difficulty) :
    0 ≤ mlScore p dev prob uc jitter ∧ mlScore p dev prob uc jitter ≤ 1 := by
  obtain ⟨h10, h11⟩ := calcDeviceSimilarity_bounds p dev
  obtain ⟨h20, h21⟩ := calcProblemSimilarity_bounds p prob
  obtain ⟨h30, h31⟩ := calcDifficultyAppropriateness_bounds p uc hd
  obtain ⟨h40, h41⟩ := calcUserContextScore_bounds p uc
  obtain ⟨h50, h51⟩ := calcSuccessRateScore_bounds p jitter
  unfold mlScore
  constructor <;> nlinarith

/-! ## Supporting lemmas: list averages -/

theorem list_sum_nonneg {l : List ℚ} (h : ∀ x ∈ l, 0 ≤ x) : 0 ≤ l.sum := by
  induction l with
  | nil => simp
  | cons a t ih =>
    rw [List.sum_cons]
    have ha := h a (List.mem_cons_self a t)
    have ht := ih (fun x hx => h x (List.mem_cons_of_mem a hx))
    linarith

theorem list_sum_le_length {l : List ℚ} (h : ∀ x ∈ l, x ≤ 1) : l.sum ≤ (l.length : ℚ) := by
  induction l with
  | nil => simp
  | cons a t ih =>
    rw [List.sum_cons, List.length_cons]
    have ha := h a (List.mem_cons_self a t)
    have ht := ih (fun x hx => h x (List.mem_cons_of_mem a hx))
    push_cast
    linarith

theorem list_avg_bounds {l : List ℚ} (hne : l ≠ [])
    (h : ∀ x ∈ l, 0 ≤ x ∧ x ≤ 1) :
    0 ≤ l.sum / (l.length : ℚ) ∧ l.sum / (l.length : ℚ) ≤ 1 := by
  have hlen : (0:ℚ) < (l.length : ℚ) := by
    have := List.length_pos.mpr hne
    exact_mod_cast this
  constructor
  · exact div_nonneg (list_sum_nonneg (fun x hx => (h x hx).1)) (le_of_lt hlen)
  · rw [div_le_one hlen]
    exact list_sum_le_length (fun x hx => (h x hx).2)

/-! ## Supporting lemmas: problem / intent classification -/

theorem problemHitConfidence_ge (cat : String) (dm : DeviceMatch) :
    8/10 ≤ problemHitConfidence cat dm := by
  unfold problemHitConfidence
  split_ifs <;> norm_num

theorem problemHitConfidence_le (cat : String) (dm : DeviceMatch) :
    problemHitConfidence cat dm ≤ 19/20 := by
  unfold problemHitConfidence
  split_ifs <;> norm_num

theorem problemHitConfidence_formula (cat : String) (dm : DeviceMatch) :
    8/10 + (if dm.confidence > 8/10 then (1:ℚ)/10 else 0) ≤ problemHitConfidence cat dm
    ∧ problemHitConfidence cat dm
        ≤ 8/10 + (if dm.confidence > 8/10 then (1:ℚ)/10 else 0) + 5/100 := by
  unfold problemHitConfidence
  split_ifs <;> constructor <;> norm_num

theorem problemPatternStep_bounds (ml : String) (dm : DeviceMatch)
    (cat : String × List String) (b : ProblemInfo) (pat : String)
    (h0 : 0 ≤ b.confidence) (h1 : b.confidence ≤ 19/20) :
    0 ≤ (problemPatternStep ml dm cat b pat).confidence
    ∧ (problemPatternStep ml dm cat b pat).confidence ≤ 19/20 := by
  unfold problemPatternStep
  by_cases hsub : hasSub ml pat = true
  · rw [if_pos hsub]
    by_cases hgt : problemHitConfidence cat.1 dm > b.confidence
    · rw [if_pos hgt]
      show 0 ≤ pyMin (problemHitConfidence cat.1 dm) (19/20)
        ∧ pyMin (problemHitConfidence cat.1 dm) (19/20) ≤ 19/20
      unfold pyMin
      split_ifs with hle
      · exact ⟨le_trans (by norm_num) (problemHitConfidence_ge cat.1 dm), hle⟩
      · exact ⟨by norm_num, le_refl _⟩
    · rw [if_neg hgt]; exact ⟨h0, h1⟩
  · rw [if_neg hsub]; exact ⟨h0, h1⟩

theorem problemPatternFold_bounds (ml : String) (dm : DeviceMatch)
    (cat : String × List String) (pats : List String) :
    ∀ b : ProblemInfo, 0 ≤ b.confidence → b.confidence ≤ 19/20 →
      0 ≤ (pats.foldl (problemPatternStep ml dm cat) b).confidence
      ∧ (pats.foldl (problemPatternStep ml dm cat) b).confidence ≤ 19/20 := by
  induction pats with
  | nil => intro b h0 h1; exact ⟨h0, h1⟩
  | cons p rest ih =>
    intro b h0 h1
    rw [List.foldl_cons]
    obtain ⟨hs0, hs1⟩ := problemPatternStep_bounds ml dm cat b p h0 h1
    exact ih _ hs0 hs1

theorem problemScanFold_bounds (ml : String) (dm : DeviceMatch)
    (cats : List (String × List String)) :
    ∀ b : ProblemInfo, 0 ≤ b.confidence → b.confidence ≤ 19/20 →
      0 ≤ (cats.foldl (problemScanCategory ml dm) b).confidence
      ∧ (cats.foldl (problemScanCategory ml dm) b).confidence ≤ 19/20 := by
  induction cats with
  | nil => intro b h0 h1; exact ⟨h0, h1⟩
  | cons c rest ih =>
    intro b h0 h1
    rw [List.foldl_cons]
    obtain ⟨hs0, hs1⟩ := problemPatternFold_bounds ml dm c c.2 b h0 h1
    exact ih _ hs0 hs1

theorem extractProblemFallback_bounds (message : String) :
    0 ≤ (extractProblemFallback message).confidence
    ∧ (extractProblemFallback message).confidence ≤ 19/20 := by
  simp only [extractProblemFallback]
  split_ifs <;> constructor <;> norm_num

theorem extractProblem_bounds (message : String) (dm : DeviceMatch) :
    0 ≤ (extractProblemInfoEnhanced message dm).confidence
    ∧ (extractProblemInfoEnhanced message dm).confidence ≤ 19/20 := by
  unfold extractProblemInfoEnhanced
  have h := problemScanFold_bounds (pyLower message) dm enhancedProblemPatterns
    problemStart (by norm_num [problemStart]) (by norm_num [problemStart])
  have hf := extractProblemFallback_bounds message
  dsimp only
  split_ifs
  · exact hf
  · exact h
  · exact h

theorem phc_nonapple (cat : String) {dm : DeviceMatch} (hc : dm.confidence > 8/10)
    (hb : pyLower dm.brand ≠ "apple") : problemHitConfidence cat dm = 9/10 := by
  unfold problemHitConfidence
  rw [if_pos hc, if_neg hb]
  norm_num

theorem problemPatternStep_nonapple (ml : String) {dm : DeviceMatch}
    (hc : dm.confidence > 8/10) (hb : pyLower dm.brand ≠ "apple")
    (cat : String × List String) (b : ProblemInfo) (pat : String)
    (h9 : b.confidence ≤ 9/10) :
    (problemPatternStep ml dm cat b pat).confidence ≤ 9/10
    ∧ (b.confidence = 9/10 → (problemPatternStep ml dm cat b pat).confidence = 9/10)
    ∧ (hasSub ml pat = true → (problemPatternStep ml dm cat b pat).confidence = 9/10) := by
  unfold problemPatternStep
  simp only [phc_nonapple cat.1 hc hb]
  have hmin : pyMin (9/10 : ℚ) (19/20) = 9/10 := by unfold pyMin; norm_num
  by_cases hsub : hasSub ml pat = true
  · rw [if_pos hsub]
    by_cases hgt : (9:ℚ)/10 > b.confidence
    · rw [if_pos hgt]
      exact ⟨by rw [hmin], fun _ => by rw [hmin], fun _ => by rw [hmin]⟩
    · rw [if_neg hgt]
      have : b.confidence = 9/10 := le_antisymm h9 (not_lt.mp hgt)
      exact ⟨h9, fun h => h, fun _ => this⟩
  · rw [if_neg hsub]
    exact ⟨h9, fun h => h, fun h => absurd h hsub⟩

theorem problemPatternFold_nonapple (ml : String) {dm : DeviceMatch}
    (hc : dm.confidence > 8/10) (hb : pyLower dm.brand ≠ "apple")
    (cat : String × List String) (pats : List String) :
    ∀ b : ProblemInfo, b.confidence ≤ 9/10 →
      (pats.foldl (problemPatternStep ml dm cat) b).confidence ≤ 9/10
      ∧ (b.confidence = 9/10 →
          (pats.foldl (problemPatternStep ml dm cat) b).confidence = 9/10)
      ∧ ((∃ p ∈ pats, hasSub ml p = true) →
          (pats.foldl (problemPatternStep ml dm cat) b).confidence = 9/10) := by
  induction pats with
  | nil =>
    intro b h9
    exact ⟨h9, fun h => h, fun ⟨p, hp, _⟩ => absurd hp (List.not_mem_nil p)⟩
  | cons p rest ih =>
    intro b h9
    rw [List.foldl_cons]
    obtain ⟨hs1, hs2, hs3⟩ := problemPatternStep_nonapple ml hc hb cat b p h9
    obtain ⟨ih1, ih2, ih3⟩ := ih _ hs1
    refine ⟨ih1, fun hbe => ih2 (hs2 hbe), fun ⟨q, hq, hsubq⟩ => ?_⟩
    rcases List.mem_cons.mp hq with rfl | hq2
    · exact ih2 (hs3 hsubq)
    · exact ih3 ⟨q, hq2, hsubq⟩

theorem problemScanFold_nonapple (ml : String) {dm : DeviceMatch}
    (hc : dm.confidence > 8/10) (hb : pyLower dm.brand ≠ "apple")
    (cats : List (String × List String)) :
    ∀ b : ProblemInfo, b.confidence ≤ 9/10 →
      (cats.foldl (problemScanCategory ml dm) b).confidence ≤ 9/10
      ∧ (b.confidence = 9/10 →
          (cats.foldl (problemScanCategory ml dm) b).confidence = 9/10)
      ∧ ((∃ c ∈ cats, ∃ p ∈ c.2, hasSub ml p = true) →
          (cats.foldl (problemScanCategory ml dm) b).confidence = 9/10) := by
  induction cats with
  | nil =>
    intro b h9
    exact ⟨h9, fun h => h, fun ⟨c, hc2, _⟩ => absurd hc2 (List.not_mem_nil c)⟩
  | cons c rest ih =>
    intro b h9
    rw [List.foldl_cons]
    obtain ⟨hs1, hs2, hs3⟩ := problemPatternFold_nonapple ml hc hb c c.2 b h9
    obtain ⟨ih1, ih2, ih3⟩ := ih _ hs1
    refine ⟨ih1, fun hbe => ih2 (hs2 hbe), fun ⟨d, hd, q, hq, hsubq⟩ => ?_⟩
    rcases List.mem_cons.mp hd with rfl | hd2
    · exact ih2 (hs3 ⟨q, hq, hsubq⟩)
    · exact ih3 ⟨d, hd2, q, hq, hsubq⟩

theorem extractProblem_nonapple (message : String) {dm : DeviceMatch}
    (hc : dm.confidence > 8/10) (hb : pyLower dm.brand ≠ "apple")
    (hhit : hasSub (pyLower message) "cracked" = true) :
    (extractProblemInfoEnhanced message dm).confidence = 9/10 := by
  unfold extractProblemInfoEnhanced
  have h := problemScanFold_nonapple (pyLower message) hc hb enhancedProblemPatterns
    problemStart (by norm_num [problemStart])
  have hex : ∃ c ∈ enhancedProblemPatterns, ∃ p ∈ c.2, hasSub (pyLower message) p = true := by
    unfold enhancedProblemPatterns
    exact ⟨_, List.mem_cons_self _ _, "cracked", by decide, hhit⟩
  have h910 := h.2.2 hex
  dsimp only
  rw [if_neg (by rw [h910]; norm_num)]
  exact h910

theorem intentHitConfidence_bounds (intent ml : String) (dm : DeviceMatch) :
    7/10 ≤ intentHitConfidence intent ml dm
    ∧ intentHitConfidence intent ml dm ≤ 17/20 := by
  unfold intentHitConfidence
  split_ifs <;> constructor <;> norm_num

theorem intentPatternFold_bounds (ml : String) (dm : DeviceMatch) (intent : String)
    (pats : List String) :
    ∀ acc : ℚ, 0 ≤ acc → acc ≤ 17/20 →
      0 ≤ pats.foldl (intentPatternStep ml dm intent) acc
      ∧ pats.foldl (intentPatternStep ml dm intent) acc ≤ 17/20 := by
  induction pats with
  | nil => intro acc h0 h1; exact ⟨h0, h1⟩
  | cons p rest ih =>
    intro acc h0 h1
    rw [List.foldl_cons]
    apply ih
    · unfold intentPatternStep
      split_ifs
      · unfold pyMax
        split_ifs
        · exact h0
        · exact le_trans (by norm_num) (intentHitConfidence_bounds intent ml dm).1
      · exact h0
    · unfold intentPatternStep
      split_ifs
      · unfold pyMax
        split_ifs
        · exact h1
        · exact (intentHitConfidence_bounds intent ml dm).2
      · exact h1

theorem intentFold_bounds (ml : String) (dm : DeviceMatch)
    (cats : List (String × List String)) :
    ∀ best : IntentInfo, 0 ≤ best.confidence → best.confidence ≤ 19/20 →
      0 ≤ (cats.foldl (intentStep ml dm) best).confidence
      ∧ (cats.foldl (intentStep ml dm) best).confidence ≤ 19/20 := by
  induction cats with
  | nil => intro best h0 h1; exact ⟨h0, h1⟩
  | cons c rest ih =>
    intro best h0 h1
    rw [List.foldl_cons]
    apply ih
    · unfold intentStep
      dsimp only
      split_ifs with hgt
      · obtain ⟨hm0, _⟩ := intentPatternFold_bounds ml dm c.1 c.2 0 (by norm_num) (by norm_num)
        unfold pyMin
        split_ifs
        · exact hm0
        · norm_num
      · exact h0
    · unfold intentStep
      dsimp only
      split_ifs with hgt
      · unfold pyMin
        split_ifs with hle
        · exact hle
        · norm_num
      · exact h1

theorem classifyIntent_bounds (message : String) (dm : DeviceMatch) :
    0 ≤ (classifyIntentEnhanced message dm).confidence
    ∧ (classifyIntentEnhanced message dm).confidence ≤ 19/20 := by
  unfold classifyIntentEnhanced
  exact intentFold_bounds (pyLower message) dm enhancedIntents
    ⟨"general_inquiry", 3/10⟩ (by norm_num) (by norm_num)

/-! ## Supporting lemmas: aggregated confidences -/

theorem round3_bounds_neg {q : ℚ} (h0 : -(1/10) ≤ q) (h1 : q ≤ 1) :
    -(1/10) ≤ round3 q ∧ round3 q ≤ 1 := by
  constructor
  · exact pyRound_ge_of_ge 3 (show (-(1/10) : ℚ) = ((-100 : ℤ) : ℚ) / 10 ^ 3 by norm_num) h0
  · exact pyRound_le_of_le 3 (show (1 : ℚ) = ((1000 : ℤ) : ℚ) / 10 ^ 3 by norm_num) h1

theorem kbConfidence_range (results : List Enhanced)
    (h : ∀ r ∈ results, 0 ≤ r.relevance) :
    -(1/10) ≤ kbConfidence results ∧ kbConfidence results ≤ 1 := by
  by_cases hne : results = []
  · unfold kbConfidence
    rw [if_pos hne]
    norm_num
  · have hgoal : kbConfidence results = round3 (pyMin ((results.headD default).relevance
        + pyMin (((results.filter (fun r => r.relevance > 7/10)).length : ℚ) * (5/100)) (15/100)
        - (if results.all (fun r => r.relevance < 8/10) then (1:ℚ)/10 else 0)) 1) := by
      unfold kbConfidence
      rw [if_neg hne]
    rw [hgoal]
    have htop : 0 ≤ (results.headD default).relevance := by
      cases results with
      | nil => exact absurd rfl hne
      | cons r t => exact h r (List.mem_cons_self r t)
    have hboost : (0:ℚ) ≤ pyMin
        (((results.filter (fun r => r.relevance > 7/10)).length : ℚ) * (5/100)) (15/100) :=
      le_pyMin (by positivity) (by norm_num)
    have hpen : (if results.all (fun r => r.relevance < 8/10) then (1:ℚ)/10 else 0) ≤ 1/10 := by
      split_ifs <;> norm_num
    exact round3_bounds_neg (le_pyMin (by linarith) (by norm_num)) (pyMin_le_right _ _)

theorem enhancedOverallConfidence_range (phase2Conf kbConf : ℚ) (diagConfs : List ℚ)
    (hp0 : 0 ≤ phase2Conf) (hp1 : phase2Conf ≤ 1)
    (hk0 : -(1/10) ≤ kbConf) (hk1 : kbConf ≤ 1)
    (hd : ∀ d ∈ diagConfs, 0 ≤ d ∧ d ≤ 1) :
    -(1/10) ≤ enhancedOverallConfidence phase2Conf kbConf diagConfs
    ∧ enhancedOverallConfidence phase2Conf kbConf diagConfs ≤ 1 := by
  unfold enhancedOverallConfidence
  have hdiag : 0 ≤ (if diagConfs = [] then (0:ℚ) else diagConfs.sum / (diagConfs.length : ℚ))
      ∧ (if diagConfs = [] then (0:ℚ) else diagConfs.sum / (diagConfs.length : ℚ)) ≤ 1 := by
    split_ifs with he
    · norm_num
    · exact list_avg_bounds he hd
  obtain ⟨hd0, hd1⟩ := hdiag
  apply round3_bounds_neg
  · nlinarith
  · nlinarith

theorem responseConfidence_range (deviceConf problemConf : ℚ) (topRelevance : Option ℚ)
    (hd0 : 0 ≤ deviceConf) (hd1 : deviceConf ≤ 1)
    (hp0 : 0 ≤ problemConf) (hp1 : problemConf ≤ 1)
    (ht : ∀ r ∈ topRelevance, 0 ≤ r ∧ r ≤ 1) :
    0 ≤ responseConfidence deviceConf problemConf topRelevance
    ∧ responseConfidence deviceConf problemConf topRelevance ≤ 1 := by
  unfold responseConfidence
  cases topRelevance with
  | none =>
    dsimp only
    constructor
    · exact le_trans (by norm_num) (le_pyMax_right _ _)
    · apply pyMax_le
      · simp only [List.sum_append, List.sum_cons, List.sum_nil,
          List.length_append, List.length_cons, List.length_nil]
        push_cast
        rw [div_le_one (by norm_num)]
        linarith
      · norm_num
  | some r =>
    obtain ⟨hr0, hr1⟩ := ht r (by simp)
    dsimp only
    constructor
    · exact le_trans (by norm_num) (le_pyMax_right _ _)
    · apply pyMax_le
      · simp only [List.sum_append, List.sum_cons, List.sum_nil,
          List.length_append, List.length_cons, List.length_nil]
        push_cast
        rw [div_le_one (by norm_num)]
        linarith
      · norm_num

theorem mlOverallConfidence_range (recScores : List ℚ) (hasContext : Bool)
    (h : ∀ s ∈ recScores, 0 ≤ s ∧ s ≤ 1) :
    0 ≤ mlOverallConfidence recScores hasContext
    ∧ mlOverallConfidence recScores hasContext ≤ 1 := by
  by_cases he : recScores = []
  · unfold mlOverallConfidence
    rw [if_pos he]
    norm_num
  · have hgoal : mlOverallConfidence recScores hasContext
        = round4 (pyMin (recScores.sum / (recScores.length : ℚ)
            + (if hasContext then (1:ℚ)/10 else 0)) 1) := by
      unfold mlOverallConfidence
      rw [if_neg he]
    rw [hgoal]
    obtain ⟨ha0, ha1⟩ := list_avg_bounds he h
    have hboost : (0:ℚ) ≤ (if hasContext then (1:ℚ)/10 else 0) := by split_ifs <;> norm_num
    have g1 : 0 ≤ pyMin (recScores.sum / (recScores.length : ℚ)
        + (if hasContext then (1:ℚ)/10 else 0)) 1 :=
      le_pyMin (by linarith) (by norm_num)
    have g2 : pyMin (recScores.sum / (recScores.length : ℚ)
        + (if hasContext then (1:ℚ)/10 else 0)) 1 ≤ 1 := pyMin_le_right _ _
    unfold round4
    constructor
    · exact pyRound_ge_of_ge 4 (show (0:ℚ) = ((0 : ℤ) : ℚ) / 10 ^ 4 by norm_num) g1
    · exact pyRound_le_of_le 4 (show (1:ℚ) = ((10000 : ℤ) : ℚ) / 10 ^ 4 by norm_num) g2

theorem processMessageEnhanced_overall_bounds {O : TextOracles} {U : UAOracle}
    {c : Cache} (hO : OracleBounds O) (hwf : CacheWF O U c)
    (message : String) (ua : Option String) (now : ℚ) :
    0 ≤ (processMessageEnhanced O U c message ua now).1.overallConfidence
    ∧ (processMessageEnhanced O U c message ua now).1.overallConfidence ≤ 1 := by
  obtain ⟨hd0, hd1⟩ := matchHybrid_confidence_bounds hO hwf message ua now
  unfold processMessageEnhanced
  cases hmt : matchHybrid O U c message ua now with
  | mk dm c1 =>
    rw [hmt] at hd0 hd1
    obtain ⟨hp0, hp1⟩ := extractProblem_bounds message dm
    obtain ⟨hi0, hi1⟩ := classifyIntent_bounds message dm
    dsimp only
    constructor <;> nlinarith

/-! ## Claim C4 -/

/-- C4 (amended): each keyword hit in the enhanced problem classifier is
scored `0.8` plus `0.1` — not `0.05` — when the device match's
confidence exceeds `0.8`, plus at most a `0.05` device-specific nudge
(iPhone screen issues / MacBook battery issues for Apple devices), and
the final problem confidence from this tier never exceeds `0.95`.  In
particular, for a high-confidence non-Apple device every hit scores
exactly `0.8 + 0.1` and a message containing "cracked" yields problem
confidence exactly `0.9`. -/
theorem problem_hit_scoring (message : String) (dm : DeviceMatch)
    (h1 : dm.confidence > 8/10) (h2 : pyLower dm.brand ≠ "apple")
    (h3 : hasSub (pyLower message) "cracked" = true) :
    (extractProblemInfoEnhanced message dm).confidence = 8/10 + 1/10
    ∧ (∀ (m : String) (d : DeviceMatch),
        (extractProblemInfoEnhanced m d).confidence ≤ 19/20)
    ∧ (∀ (cat : String) (d : DeviceMatch),
        8/10 + (if d.confidence > 8/10 then (1:ℚ)/10 else 0) ≤ problemHitConfidence cat d
        ∧ problemHitConfidence cat d
            ≤ 8/10 + (if d.confidence > 8/10 then (1:ℚ)/10 else 0) + 5/100) := by
  refine ⟨?_, fun m d => (extractProblem_bounds m d).2,
    fun cat d => problemHitConfidence_formula cat d⟩
  rw [extractProblem_nonapple message h1 h2 h3]
  norm_num

/-- Witness for C4: a Pixel 8 at confidence 0.85 and the message
"cracked screen". -/
theorem problem_hit_scoring_witness :
    (extractProblemInfoEnhanced "cracked screen"
      ⟨"Google", "Pixel 8", "Smartphone", 85/100, "text_pattern"⟩).confidence
      = 8/10 + 1/10 :=
  (problem_hit_scoring "cracked screen"
    ⟨"Google", "Pixel 8", "Smartphone", 85/100, "text_pattern"⟩
    (by norm_num) (by decide) (by decide)).1

/-- Counterexample to C4 as stated: a Samsung device at confidence 0.9
(so the device bonus applies and no Apple nudge can) and the message
"cracked".  The code scores the hit `0.8 + 0.1 = 0.9`; the claim's
formula `0.8 + 0.05` would give `0.85`. -/
theorem problem_device_bonus_cex :
    (extractProblemInfoEnhanced "cracked"
      ⟨"Samsung", "Galaxy S24", "Smartphone", 9/10, "text_pattern"⟩).confidence = 9/10
    ∧ ¬ ((extractProblemInfoEnhanced "cracked"
      ⟨"Samsung", "Galaxy S24", "Smartphone", 9/10, "text_pattern"⟩).confidence
        = 8/10 + 5/100) := by
  have h := @extractProblem_nonapple "cracked"
    ⟨"Samsung", "Galaxy S24", "Smartphone", 9/10, "text_pattern"⟩
    (by norm_num) (by decide) (by decide)
  exact ⟨h, by rw [h]; norm_num⟩

/-! ## Claim C5 -/

/-- C5 (amended): for every non-empty ranked candidate list whose top
relevance score is a multiple of 1/1000 (as every stored
`relevance_score` is, being rounded to 3 decimals), the knowledge-base
confidence equals the top candidate's relevance score plus
`min(0.05 × count(score > 0.7), 0.15)`, minus `0.1` when no candidate
reaches `0.8`, clamped **from above only** at `1.0` (the code applies
`min(·, 1.0)` with no lower clamp, so the value can be negative); for an
empty candidate list it equals exactly `0.0`, the ranking of an empty
candidate set is empty, and the aggregator is a total function (it
cannot raise). -/
theorem knowledge_confidence_formula (results : List Enhanced)
    (hne : results ≠ [])
    (hm : ∃ n : ℤ, (results.headD default).relevance = (n : ℚ) / 1000) :
    (kbConfidence results =
      min ((results.headD default).relevance
        + min (((results.filter (fun r => r.relevance > 7/10)).length : ℚ) * (5/100)) (15/100)
        - (if results.all (fun r => r.relevance < 8/10) then (1:ℚ)/10 else 0)) 1)
    ∧ kbConfidence [] = 0
    ∧ (∀ dev prob, rankProcedures [] dev prob = []) := by
  obtain ⟨n, hn⟩ := hm
  refine ⟨?_, by simp [kbConfidence], fun dev prob => by simp [rankProcedures, sortDesc]⟩
  unfold kbConfidence
  rw [if_neg hne]
  simp only [pyMin_eq]
  have hb : ∃ b : ℤ,
      min (((results.filter (fun r => r.relevance > 7/10)).length : ℚ) * (5/100)) (15/100)
        = (b : ℚ) / 1000 := by
    rcases le_total (((results.filter (fun r => r.relevance > 7/10)).length : ℚ) * (5/100))
        (15/100) with h | h
    · exact ⟨50 * (results.filter (fun r => r.relevance > 7/10)).length,
        by rw [min_eq_left h]; push_cast; ring⟩
    · exact ⟨150, by rw [min_eq_right h]; norm_num⟩
  have hp : ∃ p : ℤ,
      (if results.all (fun r => r.relevance < 8/10) then (1:ℚ)/10 else 0) = (p : ℚ) / 1000 := by
    split
    · exact ⟨100, by norm_num⟩
    · exact ⟨0, by norm_num⟩
  obtain ⟨b, hbv⟩ := hb
  obtain ⟨p, hpv⟩ := hp
  have harg : ∃ M : ℤ,
      min ((results.headD default).relevance
        + min (((results.filter (fun r => r.relevance > 7/10)).length : ℚ) * (5/100)) (15/100)
        - (if results.all (fun r => r.relevance < 8/10) then (1:ℚ)/10 else 0)) 1
        = (M : ℚ) / 1000 := by
    rw [hn, hbv, hpv]
    rcases le_total ((n : ℚ)/1000 + (b : ℚ)/1000 - (p : ℚ)/1000) 1 with h | h
    · exact ⟨n + b - p, by rw [min_eq_left h]; push_cast; ring⟩
    · exact ⟨1000, by rw [min_eq_right h]; norm_num⟩
  obtain ⟨M, hM⟩ := harg
  rw [hM]
  exact round3_thousandths M

/-- Witness for C5: a single candidate at relevance 0.9 yields
knowledge-base confidence 0.9 + 0.05 = 0.95. -/
theorem knowledge_confidence_formula_witness :
    kbConfidence [⟨1, 9/10⟩] = 19/20 := by
  have h := (knowledge_confidence_formula [⟨1, 9/10⟩] (by simp)
    ⟨900, by norm_num⟩).1
  rw [h]
  norm_num [List.filter, List.all]

/-- Counterexample to C5 as stated: a single ranked candidate whose
relevance score is 0 gets knowledge-base confidence
`min(0 + 0 - 0.1, 1.0) = -0.1`, which lies outside `[0,1]` — the
claimed clamp to `[0,1]` does not exist in the code. -/
theorem knowledge_confidence_negative_cex :
    kbConfidence [⟨1, 0⟩] = -(1/10) ∧ kbConfidence [⟨1, 0⟩] < 0 := by
  have hv : kbConfidence [⟨1, 0⟩] = -(1/10) := by
    unfold kbConfidence
    norm_num [List.filter, List.all, pyMin]
    rw [show (-(1/10) : ℚ) = ((-100 : ℤ) : ℚ) / 1000 from by norm_num]
    exact round3_thousandths (-100)
  exact ⟨hv, by rw [hv]; norm_num⟩

/-! ## Claim C8 -/

/-- C8: the top-level entry point maps every internal outcome to a
structured result — a success passes through, any internal fault maps to
the fixed fallback payload whose response confidence is exactly 0.1 and
whose safe default actions include contacting support and (per the
fallback message and the "Try a different description" action)
rephrasing the request. -/
theorem pipeline_error_boundary :
    (∀ r : Phase3Success, processMessageWithKnowledge (.ok r) = .ok r)
    ∧ (∀ e : String, processMessageWithKnowledge (.error e) = handleError e)
    ∧ (∀ e : String, ∃ resp : FallbackResponse,
        handleError e = .fallback ("Phase 3 processing error: " ++ e) resp
        ∧ resp.confidence = 1/10
        ∧ "Contact customer support" ∈ resp.recommendedActions
        ∧ "Try a different description" ∈ resp.recommendedActions
        ∧ hasSub resp.message "rephrasing" = true) := by
  refine ⟨fun r => rfl, fun e => rfl, fun e => ⟨_, rfl, rfl, ?_, ?_, ?_⟩⟩ <;> decide

/-! ## Claim C1 -/

/-- C1 (amended): every confidence/score the pipeline returns lies in
`[0,1]` — hybrid device-match confidence, problem confidence, intent
confidence, Phase-2 overall confidence, `relevance_score`, ML feature
score and ML overall confidence — **except** the knowledge-base
confidence, which the code clamps only from above and which therefore
lies in `[-0.1, 1]`, and the Phase-3 overall confidence that folds it
in, which lies in `[-0.1, 1]` as well.  The response confidence stays
in `[0,1]`. -/
theorem confidence_unit_interval :
    (∀ (O : TextOracles) (U : UAOracle) (c : Cache) (text : String)
        (ua : Option String) (now : ℚ), OracleBounds O → CacheWF O U c →
        0 ≤ (matchHybrid O U c text ua now).1.confidence
        ∧ (matchHybrid O U c text ua now).1.confidence ≤ 1)
    ∧ (∀ (m : String) (d : DeviceMatch),
        0 ≤ (extractProblemInfoEnhanced m d).confidence
        ∧ (extractProblemInfoEnhanced m d).confidence ≤ 1)
    ∧ (∀ (m : String) (d : DeviceMatch),
        0 ≤ (classifyIntentEnhanced m d).confidence
        ∧ (classifyIntentEnhanced m d).confidence ≤ 1)
    ∧ (∀ (O : TextOracles) (U : UAOracle) (c : Cache) (msg : String)
        (ua : Option String) (now : ℚ), OracleBounds O → CacheWF O U c →
        0 ≤ (processMessageEnhanced O U c msg ua now).1.overallConfidence
        ∧ (processMessageEnhanced O U c msg ua now).1.overallConfidence ≤ 1)
    ∧ (∀ (dev : DeviceInfo) (prob : ProblemQuery) (p : ProcRecord), RecordWF p →
        0 ≤ (scoreProcedure dev prob p).relevance
        ∧ (scoreProcedure dev prob p).relevance ≤ 1)
    ∧ (∀ (p : MLProcedure) (dev : DeviceInfo) (prob : ProblemQuery)
        (uc : Option UserContext) (jitter : ℚ), 1 ≤ p.difficulty →
        0 ≤ mlScore p dev prob uc jitter ∧ mlScore p dev prob uc jitter ≤ 1)
    ∧ (∀ (scores : List ℚ) (hasCtx : Bool), (∀ s ∈ scores, 0 ≤ s ∧ s ≤ 1) →
        0 ≤ mlOverallConfidence scores hasCtx ∧ mlOverallConfidence scores hasCtx ≤ 1)
    ∧ (∀ results : List Enhanced, (∀ r ∈ results, 0 ≤ r.relevance) →
        -(1/10) ≤ kbConfidence results ∧ kbConfidence results ≤ 1)
    ∧ (∀ (p2c kbc : ℚ) (diag : List ℚ), 0 ≤ p2c → p2c ≤ 1 →
        -(1/10) ≤ kbc → kbc ≤ 1 → (∀ d ∈ diag, 0 ≤ d ∧ d ≤ 1) →
        -(1/10) ≤ enhancedOverallConfidence p2c kbc diag
        ∧ enhancedOverallConfidence p2c kbc diag ≤ 1)
    ∧ (∀ (dc pc : ℚ) (tr : Option ℚ), 0 ≤ dc → dc ≤ 1 → 0 ≤ pc → pc ≤ 1 →
        (∀ r ∈ tr, 0 ≤ r ∧ r ≤ 1) →
        0 ≤ responseConfidence dc pc tr ∧ responseConfidence dc pc tr ≤ 1) := by
  refine ⟨fun O U c text ua now hO hwf => matchHybrid_confidence_bounds hO hwf text ua now,
    fun m d => ?_, fun m d => ?_,
    fun O U c msg ua now hO hwf => processMessageEnhanced_overall_bounds hO hwf msg ua now,
    fun dev prob p hwf => scoreProcedure_relevance_bounds dev prob p hwf,
    fun p dev prob uc jitter hd => mlScore_bounds p dev prob uc jitter hd,
    fun scores hasCtx h => mlOverallConfidence_range scores hasCtx h,
    fun results h => kbConfidence_range results h,
    fun p2c kbc diag h1 h2 h3 h4 h5 =>
      enhancedOverallConfidence_range p2c kbc diag h1 h2 h3 h4 h5,
    fun dc pc tr h1 h2 h3 h4 h5 => responseConfidence_range dc pc tr h1 h2 h3 h4 h5⟩
  · obtain ⟨hp0, hp1⟩ := extractProblem_bounds m d
    exact ⟨hp0, le_trans hp1 (by norm_num)⟩
  · obtain ⟨hi0, hi1⟩ := classifyIntent_bounds m d
    exact ⟨hi0, le_trans hi1 (by norm_num)⟩

/-- Witness for C1: every part instantiated at a concrete input. -/
theorem confidence_unit_interval_witness :
    (0 ≤ (matchHybrid trivialTextOracles trivialUAOracle [] "my iphone" none 0).1.confidence
      ∧ (matchHybrid trivialTextOracles trivialUAOracle [] "my iphone" none 0).1.confidence ≤ 1)
    ∧ (0 ≤ (extractProblemInfoEnhanced "cracked" unknownText).confidence
      ∧ (extractProblemInfoEnhanced "cracked" unknownText).confidence ≤ 1)
    ∧ (0 ≤ (classifyIntentEnhanced "book a repair" unknownText).confidence
      ∧ (classifyIntentEnhanced "book a repair" unknownText).confidence ≤ 1)
    ∧ (0 ≤ (processMessageEnhanced trivialTextOracles trivialUAOracle [] "my iphone"
          none 0).1.overallConfidence
      ∧ (processMessageEnhanced trivialTextOracles trivialUAOracle [] "my iphone"
          none 0).1.overallConfidence ≤ 1)
    ∧ (0 ≤ (scoreProcedure ⟨"Apple", "iPhone 14", "Smartphone"⟩ ⟨"Screen", "screen_damage", ""⟩
          ⟨3, ["Apple"], [], [], [], [], [], none, none, 0, 0, 3⟩).relevance
      ∧ (scoreProcedure ⟨"Apple", "iPhone 14", "Smartphone"⟩ ⟨"Screen", "screen_damage", ""⟩
          ⟨3, ["Apple"], [], [], [], [], [], none, none, 0, 0, 3⟩).relevance ≤ 1)
    ∧ (0 ≤ mlScore ⟨3, "apple", "smartphone", "iphone", "screen", 3, 4, 0⟩
          ⟨"Apple", "iPhone 14", "Smartphone"⟩ ⟨"Screen", "screen_damage", ""⟩ none 0
      ∧ mlScore ⟨3, "apple", "smartphone", "iphone", "screen", 3, 4, 0⟩
          ⟨"Apple", "iPhone 14", "Smartphone"⟩ ⟨"Screen", "screen_damage", ""⟩ none 0 ≤ 1)
    ∧ (0 ≤ mlOverallConfidence [1/2] true ∧ mlOverallConfidence [1/2] true ≤ 1)
    ∧ (-(1/10) ≤ kbConfidence [⟨3, 1/2⟩] ∧ kbConfidence [⟨3, 1/2⟩] ≤ 1)
    ∧ (-(1/10) ≤ enhancedOverallConfidence (1/2) (-(1/10)) [1/2]
      ∧ enhancedOverallConfidence (1/2) (-(1/10)) [1/2] ≤ 1)
    ∧ (0 ≤ responseConfidence (1/2) (1/2) (some (1/2))
      ∧ responseConfidence (1/2) (1/2) (some (1/2)) ≤ 1) := by
  obtain ⟨h1, h2, h3, h4, h5, h6, h7, h8, h9, h10⟩ := confidence_unit_interval
  have hO : OracleBounds trivialTextOracles := by
    intro t l m s hsome
    exact absurd hsome (by simp [trivialTextOracles])
  have hwf : CacheWF trivialTextOracles trivialUAOracle [] := by
    intro e he
    exact absurd he (List.not_mem_nil e)
  refine ⟨h1 _ _ _ _ _ _ hO hwf, h2 _ _, h3 _ _, h4 _ _ _ _ _ _ hO hwf,
    h5 _ _ _ ⟨?_, ?_, by norm_num, by norm_num⟩, h6 _ _ _ _ _ (by norm_num),
    h7 _ _ ?_, h8 _ ?_, h9 _ _ _ (by norm_num) (by norm_num) (by norm_num) (by norm_num) ?_,
    h10 _ _ _ (by norm_num) (by norm_num) (by norm_num) (by norm_num) ?_⟩
  · intro q hq; exact absurd hq (by simp)
  · intro s hs; exact absurd hs (by simp)
  · intro s hs
    rw [List.mem_singleton] at hs
    subst hs
    norm_num
  · intro r hr
    rw [List.mem_singleton] at hr
    subst hr
    norm_num
  · intro d hd
    rw [List.mem_singleton] at hd
    subst hd
    norm_num
  · intro r hr
    rw [Option.mem_def, Option.some.injEq] at hr
    subst hr
    norm_num

/-- Counterexample to C1 as stated: a fuzzy-strategy record with a tiny
store text-relevance rank (0.01) and no other signal is ranked at
relevance 0.001; the knowledge-base confidence the pipeline returns for
it is `round3(min(0.001 + 0 - 0.1, 1)) = -0.099 < 0`, outside `[0,1]`. -/
theorem pipeline_negative_confidence_cex :
    (searchProcedures [] [⟨7, [], [], [], [], [], [], none, none, 0, 1/100, 3⟩] []
      ⟨"Unknown", "Unknown Model", "Unknown Device"⟩
      ⟨"General", "unknown_issue", ""⟩).knowledgeBaseConfidence < 0 := by
  have e0 : round3 (0 : ℚ) = 0 := by
    have h := round3_thousandths 0; norm_num at h; simpa using h
  have e1 : round3 ((1:ℚ)/1000) = 1/1000 := by
    have h := round3_thousandths 1; push_cast at h; exact h
  have eC : round3 ((1:ℚ)/100) = 1/100 := by
    have h := round3_thousandths 10; norm_num at h; simpa using h
  have hs : scoreProcedure ⟨"Unknown", "Unknown Model", "Unknown Device"⟩
      ⟨"General", "unknown_issue", ""⟩ ⟨7, [], [], [], [], [], [], none, none, 0, 1/100, 3⟩
      = ⟨⟨7, [], [], [], [], [], [], none, none, 0, 1/100, 3⟩, 1/1000, 0, 0, 0, 1/100⟩ := by
    simp [scoreProcedure, scoreDeviceCompat, scoreProblemRelevance, scoreQualityMetrics, pyMin]
    norm_num [e0, e1, eC]
  have hms : mergeStrategies [] [⟨7, [], [], [], [], [], [], none, none, 0, 1/100, 3⟩] []
      = [⟨7, [], [], [], [], [], [], none, none, 0, 1/100, 3⟩] := by
    simp [mergeStrategies, dedupById]
  have hkb : (searchProcedures [] [⟨7, [], [], [], [], [], [], none, none, 0, 1/100, 3⟩] []
      ⟨"Unknown", "Unknown Model", "Unknown Device"⟩
      ⟨"General", "unknown_issue", ""⟩).knowledgeBaseConfidence
      = kbConfidence [⟨7, 1/1000⟩] := by
    unfold searchProcedures
    simp only [hms, rankProcedures, List.map_cons, List.map_nil, hs, sortDesc,
      List.foldl_cons, List.foldl_nil]
    simp [insDesc, enhanceResults]
  rw [hkb]
  have hneg : kbConfidence [⟨7, 1/1000⟩] = -(99/1000) := by
    unfold kbConfidence
    norm_num [List.filter, List.all, pyMin]
    have h := round3_thousandths (-99)
    have e : ((-99 : ℤ) : ℚ) / 1000 = -(99/1000) := by norm_num
    rw [e] at h
    exact h
  rw [hneg]
  norm_num

end Reviva
